import Mathlib

/-!
# Arcanum protocol-execution engine: a shallow embedding

This file embeds the stateful core of the Arcanum repository in Lean 4 and
proves/refutes the specification claims about it.

Sources embedded (file ↦ Lean section):
* `src/arcanum/state/manager.ts` (the nesting-capable revision, with
  `MAX_NESTING_DEPTH`, `invokeChild`, `returnToParent`) ↦ `StateManager.*`.
  That revision names the current-step field `phase`; the engine revision,
  its tests and the spec name the same field `step`.  We use `step`
  throughout; the logic is otherwise identical.
* `src/arcanum/protocol/schemas.ts` (`StateSchema`) ↦ `validDoc`.
* `src/arcanum/engine/fsm.ts` (step-named `FSMExecutor`) ↦ `FSM.*`.
* `src/arcanum/engine/evaluator.ts` (`GateEvaluator`) ↦ `evaluateCriteria`,
  `Gate.evaluate`.
* `src/arcanum/snippets/executor.ts` (`SnippetExecutor` with result-shape
  validation) ↦ `SnippetExecutor.execute`.
* `src/arcanum/engine/lifecycle.ts` (the nesting-capable `ArcanumEngine`
  with the one-shot `_child_result` marker, hook execution and the
  transition log) ↦ `Engine.*`.
* `src/arcanum/state/transition-log.ts` (`TransitionLog.append`) ↦
  `logAppend`.

Modelling conventions:
* A persisted state document is a JSON object, modelled as an association
  list of string keys to JSON values (`JValue`).  JavaScript objects have
  unique keys; all operations below preserve that, matching JS property
  update (in-place) / insertion (append) order.
* JavaScript `undefined` is `Option.none`; JSON serialisation drops
  properties whose value is `undefined`, so object literals with possibly
  undefined members are modelled by omitting the absent entries.
* Asynchronous file I/O is modelled by threading the disk contents
  (`Option State`, the parsed content of `state/current.json`) and a clock
  value (`now`, the string `new Date().toISOString()` would produce)
  through each operation.  `fs.access` checks inside `file_exists` gates
  become an environment function `Env.fileExists`.
* Thrown JS exceptions become `Except.error` with the thrown message.
* JSON numbers are modelled as `Int`: every number the engine itself
  stores or compares is an integer (depths, lengths, parsed literals).
-/

set_option maxHeartbeats 1000000

namespace Arcanum

/-- A JSON value, as stored in the state file and passed through the
engine.  `null` is distinct from an absent property (`Option.none`). -/
inductive JValue where
  | null : JValue
  | bool (b : Bool) : JValue
  | num (n : Int) : JValue
  | str (s : String) : JValue
  | arr (xs : List JValue) : JValue
  | obj (fields : List (String × JValue)) : JValue

/-- A state document: the parsed JSON object of `state/current.json`.
Keys are unique (JS object semantics). -/
abbrev State := List (String × JValue)

/-- Property read on an object's field list: the value at the first
(hence, keys being unique, only) occurrence of the key. -/
def getField : State → String → Option JValue
  | [], _ => none
  | (k, v) :: r, key => if k = key then some v else getField r key

/-- Property write, JS semantics: an existing key keeps its position and
gets the new value; a new key is appended at the end. -/
def setField : State → String → JValue → State
  | [], key, v => [(key, v)]
  | (k, w) :: r, key, v =>
      if k = key then (key, v) :: r else (k, w) :: setField r key v

/-- Property deletion (`delete obj[key]`). -/
def removeField : State → String → State
  | [], _ => []
  | (k, v) :: r, key => if k = key then r else (k, v) :: removeField r key

/-- Object spread `{...doc, ...patch}`: each patch entry overrides or is
appended, left to right. -/
def mergeFields (doc : State) (patch : State) : State :=
  patch.foldl (fun d kv => setField d kv.1 kv.2) doc

/-- Assignment of a possibly-`undefined` value to an object property:
setting a property to `undefined` is indistinguishable from deleting it
once the document is JSON-serialised (and `StateSchema` treats both as
absence), so it is modelled as removal. -/
def setOrDrop (doc : State) (k : String) (v : Option JValue) : State :=
  match v with
  | some x => setField doc k x
  | none => removeField doc k

/-- JS truthiness of a possibly-absent value (`undefined`, `null`,
`false`, `0` and `""` are falsy; every object and array is truthy). -/
def truthy : Option JValue → Bool
  | none => false
  | some .null => false
  | some (.bool b) => b
  | some (.num n) => !(n = 0)
  | some (.str s) => !(s = "")
  | some (.arr _) => true
  | some (.obj _) => true

/-- Is the decimal string a canonical JS array index (`"0"`, `"17"`, ...;
no leading zeros, no sign)? -/
def isCanonicalIndex (s : String) : Bool :=
  match s.data with
  | [] => false
  | [c] => c.isDigit
  | c :: cs => c.isDigit && !(c = '0') && cs.all Char.isDigit

/-- Parse a digit string to a natural number. -/
def digitsToNat (cs : List Char) : Nat :=
  cs.foldl (fun acc c => acc * 10 + (c.toNat - '0'.toNat)) 0

/-- JS property access `v[k]` on an arbitrary value: objects by key,
arrays by `length`/canonical index, strings by `length`/index (a character
as a one-character string); numbers, booleans, `null` have no properties.
(String `length` counts UTF-16 units in JS; `String.length` here counts
characters — identical on the ASCII data the engine handles.) -/
def jGet : JValue → String → Option JValue
  | .obj fs, k => getField fs k
  | .arr xs, k =>
      if k = "length" then some (.num xs.length)
      else if isCanonicalIndex k then xs.get? (digitsToNat k.data)
      else none
  | .str s, k =>
      if k = "length" then some (.num s.length)
      else if isCanonicalIndex k then
        (s.data.get? (digitsToNat k.data)).map fun c => .str (String.mk [c])
      else none
  | _, _ => none

/-- One step of the evaluator's `getNestedValue` / the engine's
`resolvePath` reduce: `(o && typeof o === 'object') ? o[k] : undefined`.
Only objects and arrays are descended (strings are `typeof "string"`,
`null` is falsy). -/
def jsPropStep (o : Option JValue) (k : String) : Option JValue :=
  match o with
  | some (.obj fs) => getField fs k
  | some (.arr xs) => jGet (.arr xs) k
  | _ => none

/-- `path.split('.')`, as a character-level splitter (semantics of JS
`String.prototype.split` on a one-character separator: `""` gives
`[""]`, consecutive dots give empty components). -/
def splitOnDotAux : List Char → List Char → List String
  | acc, [] => [String.mk acc.reverse]
  | acc, '.' :: rest => String.mk acc.reverse :: splitOnDotAux [] rest
  | acc, c :: rest => splitOnDotAux (c :: acc) rest

/-- `path.split('.')`. -/
def splitOnDot (path : String) : List String := splitOnDotAux [] path.data

/-- `GateEvaluator.getNestedValue(state, path)` /
`ArcanumEngine.resolvePath(state, path)`: split the path on `'.'` and
reduce with `jsPropStep`, starting from the state object. -/
def getNestedValue (root : JValue) (path : String) : Option JValue :=
  (splitOnDot path).foldl jsPropStep (some root)

mutual

/-- `String(v)` coercion of a present value: `"null"` for `null`, decimal
for numbers, `join(",")` for arrays (with `null` elements as `""`),
`"[object Object]"` for plain objects. -/
def JValue.jsStr : JValue → String
  | .null => "null"
  | .bool b => if b then "true" else "false"
  | .num n => toString n
  | .str s => s
  | .arr xs => String.intercalate "," (JValue.jsStrList xs)
  | .obj _ => "[object Object]"

/-- Element strings of an array under `Array.prototype.join(",")`. -/
def JValue.jsStrList : List JValue → List String
  | [] => []
  | .null :: r => "" :: JValue.jsStrList r
  | v :: r => v.jsStr :: JValue.jsStrList r

end

/-- `String(v)` coercion of a possibly-absent value (`"undefined"` for
`undefined`). -/
def jsToString : Option JValue → String
  | none => "undefined"
  | some v => v.jsStr

/-- JS nullish coalescing `a ?? b`. -/
def jsNullish (a b : Option JValue) : Option JValue :=
  match a with
  | none => b
  | some .null => b
  | some v => some v

/-! ## State schema (`protocol/schemas.ts`, `StateSchema`)

The zod schema validates: `workflow` and `step` are required strings,
`status` a required member of the five-value enum, `updated_at` an
optional ISO-datetime string, `sprint_id` and `current_task_id` optional
strings, `tasks` an optional array of objects whose `id`/`status`/`agent`
members, when present, are strings (each task object and the whole state
are `passthrough`: unknown keys are preserved unvalidated, which is where
`depth`, `call_stack` and `nested` live). -/

/-- The five status values of `StateSchema.status`. -/
def statusValues : List String :=
  ["running", "waiting", "halted", "completed", "failed"]

/-- Two-or-four decimal digits helpers for the datetime check. -/
def allDigits (cs : List Char) : Bool := cs.all Char.isDigit

/-- zod's default `z.string().datetime()` regex (no UTC offset allowed,
arbitrary sub-second precision): `^\d{4}-\d{2}-\d{2}T\d{2}:\d{2}:\d{2}(\.\d+)?Z$`.
The check is purely syntactic, as in zod v3. -/
def isDatetime (s : String) : Bool :=
  match s.data with
  | y1 :: y2 :: y3 :: y4 :: '-' :: m1 :: m2 :: '-' :: d1 :: d2 :: 'T' ::
      h1 :: h2 :: ':' :: n1 :: n2 :: ':' :: s1 :: s2 :: rest =>
    allDigits [y1, y2, y3, y4, m1, m2, d1, d2, h1, h2, n1, n2, s1, s2] &&
      (match rest with
       | ['Z'] => true
       | '.' :: frac =>
           match frac.dropLast with
           | [] => false
           | ds => allDigits ds && frac.getLast? = some 'Z'
       | _ => false)
  | _ => false

/-- An optional field that must be a string when present (`z.string().optional()`;
zod `optional` accepts absence but not `null`). -/
def optStr : Option JValue → Bool
  | none => true
  | some (.str _) => true
  | _ => false

/-- One element of `tasks`: an object whose `id`, `status`, `agent` are
strings when present (other keys pass through). -/
def validTask : JValue → Bool
  | .obj fs =>
      optStr (getField fs "id") && optStr (getField fs "status") &&
        optStr (getField fs "agent")
  | _ => false

/-- The optional `tasks` field: an array of valid task objects. -/
def validTasks : Option JValue → Bool
  | none => true
  | some (.arr xs) => xs.all validTask
  | _ => false

/-- A required string field (`z.string()`). -/
def isStrVal : Option JValue → Bool
  | some (.str _) => true
  | _ => false

/-- The required `status` enum field. -/
def isStatusVal : Option JValue → Bool
  | some (.str s) => statusValues.contains s
  | _ => false

/-- The optional `updated_at` field (`z.string().datetime().optional()`). -/
def isOptDatetime : Option JValue → Bool
  | none => true
  | some (.str s) => isDatetime s
  | _ => false

/-- `StateSchema.parse` succeeds on the document.  (The `passthrough`
modifier preserves all unlisted keys unvalidated.) -/
def validDoc (doc : State) : Bool :=
  isStrVal (getField doc "workflow") &&
  isStrVal (getField doc "step") &&
  isStatusVal (getField doc "status") &&
  isOptDatetime (getField doc "updated_at") &&
  optStr (getField doc "sprint_id") &&
  optStr (getField doc "current_task_id") &&
  validTasks (getField doc "tasks")

/-! ## State manager (`state/manager.ts`, nesting-capable revision)

The manager owns `state/current.json` (single-file mode; multi mode is
the same document under another name).  Disk contents are threaded as
`Option State`; the in-memory `cache` always equals the disk contents in
this model (every `save` sets both, every successful `load` refreshes the
cache from disk), so a single value stands for both.  `now` is the string
`new Date().toISOString()` would return at the call. -/

/-- Maximum nesting depth to prevent infinite recursion
(`MAX_NESTING_DEPTH`). -/
def MAX_NESTING_DEPTH : Nat := 10

/-- `state.call_stack?.length ?? 0` as used by `load`'s consistency
assertion: absent/`null` give 0; arrays their length; strings their
length; other values have no `length` property, so `?? 0` yields 0. -/
def stackLenForLoad : Option JValue → Nat
  | some (.arr xs) => xs.length
  | some (.str s) => s.length
  | _ => 0

/-- JS strict equality `v === n` between a possibly-absent value and a
number: true only when the value is that number. -/
def isNumStrictEq (v : Option JValue) (n : Nat) : Bool :=
  match v with
  | some (.num m) => m = (n : Int)
  | _ => false

namespace StateManager

/-- `load()`: read and `StateSchema.parse` the state file (`ENOENT` is
reported as "not initialized"), then assert the `depth ==
call_stack.length` consistency invariant (`state.depth !== stackLength`
is a strict comparison: a missing or non-numeric `depth` also fails). -/
def load (disk : Option State) : Except String State :=
  match disk with
  | none => .error "State not initialized. Run workflow first."
  | some doc =>
      if !validDoc doc then .error "State schema validation failed"
      else
        let stackLength := stackLenForLoad (getField doc "call_stack")
        if !(isNumStrictEq (getField doc "depth") stackLength) then
          .error "State consistency error: depth does not match call_stack length"
        else .ok doc

/-- `save(state)`: stamp `updated_at` with the current time, re-validate
against `StateSchema`, then write atomically (temp file + rename: the
write itself is modelled as replacing the disk value).  The returned
document is the new disk (and cache) content. -/
def save (doc : State) (now : String) : Except String State :=
  let stamped := setField doc "updated_at" (.str now)
  if validDoc stamped then .ok stamped else .error "State schema validation failed"

/-- `getState()`: the cache when present, else `load()`.  Cache and disk
coincide in this model, so this reads the disk document without
re-validating. -/
def getState (disk : Option State) : Except String State :=
  match disk with
  | some doc => .ok doc
  | none => load none

/-- `updateStatus(status)`: load, set `status`, save. -/
def updateStatus (disk : Option State) (status : String) (now : String) :
    Except String State :=
  match load disk with
  | .error e => .error e
  | .ok s => save (setField s "status" (.str status)) now

/-- `updateStep(step)`: load, set `step`, save.  (Named `updatePhase` in
the phase-named revision.) -/
def updateStep (disk : Option State) (step : String) (now : String) :
    Except String State :=
  match load disk with
  | .error e => .error e
  | .ok s => save (setField s "step" (.str step)) now

/-- `initialize(workflowId, initialStep)`: fresh depth-0 document with an
empty call stack, status `running`, saved immediately.  (`initialize` is
a Lean keyword, hence the different Lean name.) -/
def initialState (workflowId initialStep : String) (now : String) :
    Except String State :=
  save [("workflow", .str workflowId), ("step", .str initialStep),
        ("status", .str "running"), ("updated_at", .str now),
        ("depth", .num 0), ("call_stack", .arr [])] now

/-- `state.call_stack ?? []` where the result is used as an array (its
`length` read, it is spread and pushed onto).  A truthy non-array value
here would make the TS code throw a `TypeError` on spread (or, for
strings, spread into characters); such malformed documents are outside
every claim and are modelled as an error. -/
def getCallStackArr (doc : State) : Except String (List JValue) :=
  match getField doc "call_stack" with
  | none => .ok []
  | some .null => .ok []
  | some (.arr xs) => .ok xs
  | some _ => .error "TypeError: call_stack is not an array"

/-- Entry field list helper: a JS object-literal member whose value may be
`undefined`, which JSON serialisation drops. -/
def optEntry (k : String) (v : Option JValue) : List (String × JValue) :=
  match v with
  | some x => [(k, x)]
  | none => []

/-- An output mapping (`Record<string, string>`) as a JSON object. -/
def strMapToObj (m : List (String × String)) : JValue :=
  .obj (m.map fun kv => (kv.1, .str kv.2))

/-- The `CallStackEntry` pushed by `invokeChild`: the *current* workflow,
step, the caller-requested resume step and output mapping. -/
def mkCallStackEntry (doc : State) (resumeToStep : Option String)
    (outputMapping : Option (List (String × String))) : JValue :=
  .obj (optEntry "workflow" (getField doc "workflow") ++
        optEntry "step" (getField doc "step") ++
        optEntry "resume_to" (resumeToStep.map .str) ++
        optEntry "output_mapping" (outputMapping.map strMapToObj))

/-- The `nested` descriptor recorded by `invokeChild`. -/
def mkNested (childWorkflowId childInitialStep : String)
    (input : List (String × JValue)) (depth : Nat) : JValue :=
  .obj [("workflow", .str childWorkflowId), ("step", .str childInitialStep),
        ("status", .str "running"), ("input", .obj input),
        ("depth", .num depth)]

/-- `invokeChild(childWorkflowId, childInitialStep, input, resumeToStep?,
outputMapping?)`: load; refuse once the call stack already holds
`MAX_NESTING_DEPTH` entries; else push one `CallStackEntry` capturing the
current workflow/step/resume target/output mapping, switch
`workflow`/`step` to the child's, set `status` `running`, `depth` to the
new stack length, record `nested`, save. -/
def invokeChild (disk : Option State) (childWorkflowId childInitialStep : String)
    (input : List (String × JValue)) (resumeToStep : Option String)
    (outputMapping : Option (List (String × String))) (now : String) :
    Except String State :=
  match load disk with
  | .error e => .error e
  | .ok state =>
  match getCallStackArr state with
  | .error e => .error e
  | .ok callStack =>
  if callStack.length ≥ MAX_NESTING_DEPTH then
    .error ("Maximum nesting depth (" ++ toString MAX_NESTING_DEPTH ++ ") exceeded")
  else
    let stackEntry := mkCallStackEntry state resumeToStep outputMapping
    let newCallStack := callStack ++ [stackEntry]
    let nested := mkNested childWorkflowId childInitialStep input newCallStack.length
    let newState :=
      mergeFields state
        [("workflow", .str childWorkflowId), ("step", .str childInitialStep),
         ("status", .str "running"), ("depth", .num newCallStack.length),
         ("call_stack", .arr newCallStack), ("nested", nested)]
    save newState now

/-- `returnToParent(result)`: load; refuse when the call stack is empty;
else pop the top entry, merge the caller-supplied `result` fields into
the state (`{...state, ...result, ...}` — the explicitly-set core fields
below shadow same-named result keys), restore `workflow` from the popped
entry, set `step` to its `resume_to` (or, `??`, its recorded `step`),
`status` `running`, decrement `depth`, drop `nested` (set to `undefined`,
which JSON serialisation removes), save. -/
def returnToParent (disk : Option State) (result : List (String × JValue))
    (now : String) : Except String State :=
  match load disk with
  | .error e => .error e
  | .ok state =>
  match getCallStackArr state with
  | .error e => .error e
  | .ok callStack =>
  if callStack.length = 0 then
    .error "Cannot return to parent: not in nested workflow"
  else
    let parent := callStack.getLastD .null
    let newCallStack := callStack.dropLast
    let resumeStep := jsNullish (jGet parent "resume_to") (jGet parent "step")
    let merged := mergeFields state result
    let withCore :=
      setField
        (setField
          (setField
            (setOrDrop (setOrDrop merged "workflow" (jGet parent "workflow"))
              "step" resumeStep)
            "status" (.str "running"))
          "depth" (.num newCallStack.length))
        "call_stack" (.arr newCallStack)
    save (removeField withCore "nested") now

end StateManager

/-! ## Lemmas about the document operations -/

theorem getField_setField : ∀ (doc : State) (k : String) (v : JValue) (q : String),
    getField (setField doc k v) q = if q = k then some v else getField doc q
  | [], k, v, q => by
      simp only [setField, getField]
      by_cases h : k = q
      · subst h; simp
      · rw [if_neg h, if_neg (fun hh : q = k => h hh.symm)]
  | (a, w) :: r, k, v, q => by
      simp only [setField]
      by_cases hak : a = k
      · subst hak
        simp only [if_pos rfl, getField]
        by_cases haq : a = q
        · subst haq; simp
        · rw [if_neg haq, if_neg (fun hh : q = a => haq hh.symm), if_neg haq]
      · rw [if_neg hak]
        simp only [getField]
        by_cases haq : a = q
        · subst haq
          rw [if_pos rfl, if_neg (fun hh : a = k => hak hh), if_pos rfl]
        · rw [if_neg haq, if_neg haq, getField_setField r k v q]

theorem getField_removeField_ne : ∀ (doc : State) (k q : String), q ≠ k →
    getField (removeField doc k) q = getField doc q
  | [], _, _, _ => rfl
  | (a, w) :: r, k, q, h => by
      simp only [removeField]
      by_cases hak : a = k
      · subst hak
        rw [if_pos rfl]
        simp only [getField]
        rw [if_neg (fun hh : a = q => h hh.symm)]
      · rw [if_neg hak]
        simp only [getField]
        by_cases haq : a = q
        · rw [if_pos haq, if_pos haq]
        · rw [if_neg haq, if_neg haq, getField_removeField_ne r k q h]

theorem getField_eq_none_of_not_mem : ∀ (doc : State) (k : String),
    k ∉ doc.map Prod.fst → getField doc k = none
  | [], _, _ => rfl
  | (a, w) :: r, k, h => by
      simp only [List.map_cons, List.mem_cons] at h
      push_neg at h
      simp only [getField, if_neg (fun hh : a = k => h.1 hh.symm)]
      exact getField_eq_none_of_not_mem r k h.2

theorem getField_removeField_self : ∀ (doc : State) (k : String),
    (doc.map Prod.fst).Nodup → getField (removeField doc k) k = none
  | [], _, _ => rfl
  | (a, w) :: r, k, h => by
      simp only [List.map_cons, List.nodup_cons] at h
      simp only [removeField]
      by_cases hak : a = k
      · subst hak
        rw [if_pos rfl]
        exact getField_eq_none_of_not_mem r a h.1
      · rw [if_neg hak]
        simp only [getField, if_neg hak]
        exact getField_removeField_self r k h.2

theorem mergeFields_cons (doc : State) (p : String × JValue) (ps : State) :
    mergeFields doc (p :: ps) = mergeFields (setField doc p.1 p.2) ps := rfl

theorem getField_mergeFields : ∀ (patch doc : State) (k : String),
    (patch.map Prod.fst).Nodup →
    getField (mergeFields doc patch) k =
      match getField patch k with
      | some v => some v
      | none => getField doc k
  | [], doc, k, _ => by simp [mergeFields, getField]
  | (a, w) :: ps, doc, k, hp => by
      simp only [List.map_cons, List.nodup_cons] at hp
      rw [mergeFields_cons, getField_mergeFields ps _ k hp.2]
      simp only [getField]
      by_cases hak : a = k
      · subst hak
        have hnone : getField ps a = none :=
          getField_eq_none_of_not_mem ps a hp.1
        rw [if_pos rfl, hnone]
        simp [getField_setField]
      · rw [if_neg hak]
        cases hps : getField ps k with
        | some v => simp
        | none =>
            simp only
            rw [getField_setField, if_neg (fun hh : k = a => hak hh.symm)]

theorem getField_setOrDrop_ne (doc : State) (k : String) (v : Option JValue)
    (q : String) (h : q ≠ k) :
    getField (setOrDrop doc k v) q = getField doc q := by
  cases v with
  | none => exact getField_removeField_ne doc k q h
  | some x => rw [setOrDrop, getField_setField, if_neg h]

/-! ## The depth/call-stack invariant and the claims about the manager -/

/-- The `depth == call_stack.length` invariant, exactly as `load`'s
consistency assertion computes it (`state.depth !== (state.call_stack?.length ?? 0)`). -/
def depthConsistent (doc : State) : Bool :=
  isNumStrictEq (getField doc "depth") (stackLenForLoad (getField doc "call_stack"))

/-- The disk contents after running a manager operation: a successful
operation saved its result; a thrown error leaves the file untouched. -/
def diskAfter (disk : Option State) (r : Except String State) : Option State :=
  match r with
  | .ok s => some s
  | .error _ => disk

/-- **C1** — Every document accepted by `StateManager.load` satisfies
`depth == call_stack.length`; `load` returns the document unrepaired; any
document violating the equality is rejected with an error; and every
state persisted by `initialize`, `invokeChild` and `returnToParent`
satisfies the equality (with a genuine array call stack). -/
theorem C1_depth_call_stack_invariant :
    (∀ disk doc, StateManager.load disk = .ok doc →
        disk = some doc ∧ depthConsistent doc = true) ∧
    (∀ doc, depthConsistent doc = false →
        (StateManager.load (some doc)).isOk = false) ∧
    (∀ wf st now s, StateManager.initialState wf st now = .ok s →
        depthConsistent s = true) ∧
    (∀ disk c i inp r m now s,
        StateManager.invokeChild disk c i inp r m now = .ok s →
        depthConsistent s = true) ∧
    (∀ disk res now s,
        StateManager.returnToParent disk res now = .ok s →
        depthConsistent s = true) := by
  refine ⟨?_, ?_, ?_, ?_, ?_⟩
  · intro disk doc h
    cases disk with
    | none => simp [StateManager.load] at h
    | some d =>
        by_cases hv : validDoc d
        · by_cases hc : isNumStrictEq (getField d "depth")
              (stackLenForLoad (getField d "call_stack"))
          · simp [StateManager.load, hv, hc] at h
            subst h
            exact ⟨rfl, hc⟩
          · simp [StateManager.load, hv, hc] at h
        · simp [StateManager.load, hv] at h
  · intro doc hbad
    rw [depthConsistent] at hbad
    by_cases hv : validDoc doc
    · have hl : StateManager.load (some doc) =
          .error "State consistency error: depth does not match call_stack length" := by
        simp [StateManager.load, hv, hbad]
      rw [hl]; rfl
    · have hl : StateManager.load (some doc) = .error "State schema validation failed" := by
        simp [StateManager.load, hv]
      rw [hl]; rfl
  · intro wf st now s h
    simp only [StateManager.initialState, StateManager.save] at h
    split at h
    · cases h
      simp [depthConsistent, isNumStrictEq, stackLenForLoad, getField, setField]
    · cases h
  · intro disk c i inp r m now s h
    rw [StateManager.invokeChild] at h
    cases hload : StateManager.load disk with
    | error e => rw [hload] at h; cases h
    | ok st =>
        rw [hload] at h
        dsimp only at h
        cases hcs : StateManager.getCallStackArr st with
        | error e => rw [hcs] at h; cases h
        | ok callStack =>
            rw [hcs] at h
            dsimp only at h
            split at h
            · cases h
            · simp only [StateManager.save] at h
              split at h
              · cases h
                simp [depthConsistent, getField_setField, getField_mergeFields,
                      getField, stackLenForLoad, isNumStrictEq]
              · cases h
  · intro disk res now s h
    rw [StateManager.returnToParent] at h
    cases hload : StateManager.load disk with
    | error e => rw [hload] at h; cases h
    | ok st =>
        rw [hload] at h
        dsimp only at h
        cases hcs : StateManager.getCallStackArr st with
        | error e => rw [hcs] at h; cases h
        | ok callStack =>
            rw [hcs] at h
            dsimp only at h
            split at h
            · cases h
            · simp only [StateManager.save] at h
              split at h
              · cases h
                simp [depthConsistent, getField_setField, getField_removeField_ne,
                      getField, stackLenForLoad, isNumStrictEq]
              · cases h

/-- Witness for C1 at concrete inputs: a hand-crafted inconsistent
document is rejected, and a freshly initialized state is consistent. -/
theorem C1_witness :
    (StateManager.load (some [("workflow", .str "m"), ("step", .str "s"),
        ("status", .str "running"), ("depth", .num 3),
        ("call_stack", .arr [])])).isOk = false ∧
    depthConsistent ((StateManager.initialState "m" "s"
        "2025-01-01T00:00:00.000Z").toOption.getD []) = true := by
  constructor
  · exact C1_depth_call_stack_invariant.2.1 _ (by decide)
  · exact C1_depth_call_stack_invariant.2.2.1 "m" "s" "2025-01-01T00:00:00.000Z" _ (by rfl)

/-- **C6** — For every schema-valid, depth-consistent state document,
`save` stamps `updated_at` and nothing else, and `load` then returns the
saved document unchanged: every caller-visible field — including
caller-defined passthrough fields such as `tasks` and `current_task_id`
that the engine never interprets — round-trips. -/
theorem C6_save_load_round_trip (doc : State) (now : String)
    (hv : validDoc doc = true) (hdt : isDatetime now = true)
    (hc : depthConsistent doc = true) :
    StateManager.save doc now = .ok (setField doc "updated_at" (.str now)) ∧
    StateManager.load (some (setField doc "updated_at" (.str now))) =
      .ok (setField doc "updated_at" (.str now)) ∧
    (∀ k, k ≠ "updated_at" →
      getField (setField doc "updated_at" (.str now)) k = getField doc k) ∧
    getField (setField doc "updated_at" (.str now)) "updated_at" =
      some (.str now) := by
  have hne : ∀ k, k ≠ "updated_at" →
      getField (setField doc "updated_at" (.str now)) k = getField doc k := by
    intro k hk
    rw [getField_setField, if_neg hk]
  have hat : getField (setField doc "updated_at" (.str now)) "updated_at" =
      some (.str now) := by
    rw [getField_setField, if_pos rfl]
  have hv' : validDoc (setField doc "updated_at" (.str now)) = true := by
    simp only [validDoc, Bool.and_eq_true] at hv ⊢
    obtain ⟨⟨⟨⟨⟨⟨hA, hB⟩, hC⟩, _hD⟩, hE⟩, hF⟩, hG⟩ := hv
    rw [hne "workflow" (by decide), hne "step" (by decide),
        hne "status" (by decide), hat, hne "sprint_id" (by decide),
        hne "current_task_id" (by decide), hne "tasks" (by decide)]
    exact ⟨⟨⟨⟨⟨⟨hA, hB⟩, hC⟩, by simp [isOptDatetime, hdt]⟩, hE⟩, hF⟩, hG⟩
  have hc' : depthConsistent (setField doc "updated_at" (.str now)) = true := by
    rw [depthConsistent, hne "depth" (by decide), hne "call_stack" (by decide)]
    exact hc
  refine ⟨?_, ?_, hne, hat⟩
  · simp [StateManager.save, hv']
  · rw [depthConsistent] at hc'
    simp [StateManager.load, hv', hc']

/-- Witness for C6: a state document carrying passthrough `tasks`,
`current_task_id` and a custom field survives a save/load round trip. -/
theorem C6_witness :
    StateManager.save
        [("workflow", .str "task_loop"), ("step", .str "work_loop"),
         ("status", .str "running"), ("updated_at", .str "2024-12-31T23:59:59Z"),
         ("depth", .num 0), ("call_stack", .arr []),
         ("tasks", .arr [.obj [("id", .str "1"), ("status", .str "pending")]]),
         ("current_task_id", .str "1"), ("sprint", .str "alpha")]
        "2025-01-01T00:00:00.000Z" =
      .ok (setField
        [("workflow", .str "task_loop"), ("step", .str "work_loop"),
         ("status", .str "running"), ("updated_at", .str "2024-12-31T23:59:59Z"),
         ("depth", .num 0), ("call_stack", .arr []),
         ("tasks", .arr [.obj [("id", .str "1"), ("status", .str "pending")]]),
         ("current_task_id", .str "1"), ("sprint", .str "alpha")]
        "updated_at" (.str "2025-01-01T00:00:00.000Z")) ∧
    getField (setField
        [("workflow", .str "task_loop"), ("step", .str "work_loop"),
         ("status", .str "running"), ("updated_at", .str "2024-12-31T23:59:59Z"),
         ("depth", .num 0), ("call_stack", .arr []),
         ("tasks", .arr [.obj [("id", .str "1"), ("status", .str "pending")]]),
         ("current_task_id", .str "1"), ("sprint", .str "alpha")]
        "updated_at" (.str "2025-01-01T00:00:00.000Z")) "tasks" =
      getField
        [("workflow", .str "task_loop"), ("step", .str "work_loop"),
         ("status", .str "running"), ("updated_at", .str "2024-12-31T23:59:59Z"),
         ("depth", .num 0), ("call_stack", .arr []),
         ("tasks", .arr [.obj [("id", .str "1"), ("status", .str "pending")]]),
         ("current_task_id", .str "1"), ("sprint", .str "alpha")] "tasks" :=
  ⟨(C6_save_load_round_trip _ _ (by rfl) (by rfl) (by rfl)).1,
   (C6_save_load_round_trip _ _ (by rfl) (by rfl) (by rfl)).2.2.1 "tasks" (by decide)⟩

theorem getField_append (l1 l2 : State) (k : String) :
    getField (l1 ++ l2) k =
      match getField l1 k with
      | some v => some v
      | none => getField l2 k := by
  induction l1 with
  | nil => rfl
  | cons p r ih =>
      obtain ⟨a, w⟩ := p
      by_cases hak : a = k
      · simp [getField, hak]
      · simp [getField, hak, ih]

theorem getField_optEntry_self (k : String) (v : Option JValue) :
    getField (StateManager.optEntry k v) k = v := by
  cases v <;> simp [StateManager.optEntry, getField]

theorem getField_optEntry_ne (k : String) (v : Option JValue) (q : String)
    (h : q ≠ k) : getField (StateManager.optEntry k v) q = none := by
  cases v with
  | none => rfl
  | some x =>
      simp only [StateManager.optEntry, getField]
      rw [if_neg (fun hh : k = q => h hh.symm)]

/-- A document accepted by `load` passed `StateSchema.parse`. -/
theorem validDoc_of_load (doc : State)
    (h : StateManager.load (some doc) = .ok doc) : validDoc doc = true := by
  by_cases hv : validDoc doc
  · exact hv
  · simp [StateManager.load, hv] at h

/-- The four recorded components of the call-stack entry `invokeChild`
pushes: the current workflow and step, the requested resume target and
output mapping. -/
theorem mkCallStackEntry_fields (doc : State) (r : Option String)
    (m : Option (List (String × String))) :
    jGet (StateManager.mkCallStackEntry doc r m) "workflow" = getField doc "workflow" ∧
    jGet (StateManager.mkCallStackEntry doc r m) "step" = getField doc "step" ∧
    jGet (StateManager.mkCallStackEntry doc r m) "resume_to" = r.map .str ∧
    jGet (StateManager.mkCallStackEntry doc r m) "output_mapping" =
      m.map StateManager.strMapToObj := by
  refine ⟨?_, ?_, ?_, ?_⟩
  all_goals
    simp only [StateManager.mkCallStackEntry, jGet, getField_append,
        getField_optEntry_self, getField_optEntry_ne, ne_eq,
        String.reduceEq, not_false_eq_true, getField]
  all_goals
    first
    | (cases getField doc "workflow" <;> rfl)
    | (cases getField doc "step" <;> rfl)
    | (cases r <;> rfl)

/-- **C3** — For every loadable persisted state whose call stack is an
array already holding `MAX_NESTING_DEPTH` (10) entries, `invokeChild`
fails with the maximum-nesting-depth error and the persisted state is
unchanged; for every shorter call stack it succeeds, pushing exactly one
`CallStackEntry` capturing the current workflow, step, resume target and
output mapping, switching `workflow`/`step` to the child's, setting the
status to `running`, incrementing `depth` by 1, recording a `nested`
descriptor, and leaving every other field untouched. -/
theorem C3_invoke_nesting_bound (doc : State) (xs : List JValue)
    (c i : String) (inp : List (String × JValue)) (r : Option String)
    (m : Option (List (String × String))) (now : String)
    (hload : StateManager.load (some doc) = .ok doc)
    (hcs : getField doc "call_stack" = some (.arr xs))
    (hdt : isDatetime now = true) :
    (xs.length = MAX_NESTING_DEPTH →
      StateManager.invokeChild (some doc) c i inp r m now =
        .error "Maximum nesting depth (10) exceeded" ∧
      diskAfter (some doc) (StateManager.invokeChild (some doc) c i inp r m now) =
        some doc) ∧
    (xs.length < MAX_NESTING_DEPTH →
      ∃ s, StateManager.invokeChild (some doc) c i inp r m now = .ok s ∧
        getField s "workflow" = some (.str c) ∧
        getField s "step" = some (.str i) ∧
        getField s "status" = some (.str "running") ∧
        getField s "depth" = some (.num (xs.length + 1)) ∧
        getField s "call_stack" =
          some (.arr (xs ++ [StateManager.mkCallStackEntry doc r m])) ∧
        getField s "nested" =
          some (StateManager.mkNested c i inp (xs.length + 1)) ∧
        getField s "updated_at" = some (.str now) ∧
        (∀ k, k ∉ ["workflow", "step", "status", "depth", "call_stack",
                   "nested", "updated_at"] → getField s k = getField doc k)) := by
  have hv : validDoc doc = true := validDoc_of_load doc hload
  have hgcs : StateManager.getCallStackArr doc = .ok xs := by
    rw [StateManager.getCallStackArr, hcs]
  constructor
  · intro hlen
    have herr : StateManager.invokeChild (some doc) c i inp r m now =
        .error "Maximum nesting depth (10) exceeded" := by
      rw [StateManager.invokeChild, hload]
      dsimp only
      rw [hgcs]
      dsimp only
      rw [if_pos (by rw [hlen])]
      rfl
    refine ⟨herr, ?_⟩
    rw [herr]
    rfl
  · intro hlen
    rw [StateManager.invokeChild, hload]
    dsimp only
    rw [hgcs]
    dsimp only
    rw [if_neg (by omega)]
    set entry : JValue := StateManager.mkCallStackEntry doc r m with hentry
    set patch : State :=
      [("workflow", JValue.str c), ("step", JValue.str i),
       ("status", JValue.str "running"),
       ("depth", JValue.num ((xs ++ [entry]).length : Nat)),
       ("call_stack", JValue.arr (xs ++ [entry])),
       ("nested", StateManager.mkNested c i inp (xs ++ [entry]).length)]
      with hpatch
    have hnodup : (patch.map Prod.fst).Nodup := by
      rw [hpatch]
      simp only [List.map_cons, List.map_nil]
      decide
    have hget : ∀ q, getField (mergeFields doc patch) q =
        match getField patch q with
        | some v => some v
        | none => getField doc q := fun q => getField_mergeFields patch doc q hnodup
    have hgetS : ∀ q, getField (setField (mergeFields doc patch) "updated_at" (.str now)) q =
        if q = "updated_at" then some (.str now) else
          match getField patch q with
          | some v => some v
          | none => getField doc q := by
      intro q
      rw [getField_setField]
      by_cases hq : q = "updated_at"
      · rw [if_pos hq, if_pos hq]
      · rw [if_neg hq, if_neg hq, hget q]
    have hframe : ∀ q, q ≠ "updated_at" → getField patch q = none →
        getField (setField (mergeFields doc patch) "updated_at" (.str now)) q =
          getField doc q := by
      intro q hq hnone
      rw [hgetS q, if_neg hq, hnone]
    have hW : getField (setField (mergeFields doc patch) "updated_at" (.str now))
        "workflow" = some (.str c) := by
      rw [hgetS "workflow", if_neg (by decide), hpatch]
      rfl
    have hS : getField (setField (mergeFields doc patch) "updated_at" (.str now))
        "step" = some (.str i) := by
      rw [hgetS "step", if_neg (by decide), hpatch]
      rfl
    have hSt : getField (setField (mergeFields doc patch) "updated_at" (.str now))
        "status" = some (.str "running") := by
      rw [hgetS "status", if_neg (by decide), hpatch]
      rfl
    have hD : getField (setField (mergeFields doc patch) "updated_at" (.str now))
        "depth" = some (.num ((xs ++ [entry]).length : Nat)) := by
      rw [hgetS "depth", if_neg (by decide), hpatch]
      rfl
    have hC : getField (setField (mergeFields doc patch) "updated_at" (.str now))
        "call_stack" = some (.arr (xs ++ [entry])) := by
      rw [hgetS "call_stack", if_neg (by decide), hpatch]
      rfl
    have hN : getField (setField (mergeFields doc patch) "updated_at" (.str now))
        "nested" = some (StateManager.mkNested c i inp (xs ++ [entry]).length) := by
      rw [hgetS "nested", if_neg (by decide), hpatch]
      rfl
    have hU : getField (setField (mergeFields doc patch) "updated_at" (.str now))
        "updated_at" = some (.str now) := by
      rw [hgetS "updated_at", if_pos rfl]
    have hv' : validDoc (setField (mergeFields doc patch) "updated_at" (.str now)) = true := by
      simp only [validDoc, Bool.and_eq_true] at hv ⊢
      obtain ⟨⟨⟨⟨⟨⟨_hA, _hB⟩, _hC⟩, _hD⟩, hE⟩, hF⟩, hG⟩ := hv
      rw [hW, hS, hSt, hU,
          hframe "sprint_id" (by decide) (by rw [hpatch]; rfl),
          hframe "current_task_id" (by decide) (by rw [hpatch]; rfl),
          hframe "tasks" (by decide) (by rw [hpatch]; rfl)]
      exact ⟨⟨⟨⟨⟨⟨rfl, rfl⟩, rfl⟩, by simp [isOptDatetime, hdt]⟩, hE⟩, hF⟩, hG⟩
    rw [StateManager.save, if_pos (by rw [hv'])]
    refine ⟨_, rfl, hW, hS, hSt, ?_, hC, ?_, hU, ?_⟩
    · rw [hD]
      simp
    · rw [hN]
      simp
    · intro k hk
      simp only [List.mem_cons, List.not_mem_nil, or_false] at hk
      push_neg at hk
      obtain ⟨h1, h2, h3, h4, h5, h6, h7⟩ := hk
      refine hframe k h7 ?_
      apply getField_eq_none_of_not_mem
      rw [hpatch]
      simp only [List.map_cons, List.map_nil, List.mem_cons, List.not_mem_nil, or_false]
      push_neg
      exact ⟨h1, h2, h3, h4, h5, h6⟩

theorem map_fst_setField (doc : State) (k : String) (v : JValue) :
    (setField doc k v).map Prod.fst =
      if k ∈ doc.map Prod.fst then doc.map Prod.fst
      else doc.map Prod.fst ++ [k] := by
  induction doc with
  | nil => simp [setField]
  | cons p r ih =>
      obtain ⟨a, w⟩ := p
      by_cases hak : a = k
      · subst hak
        simp [setField]
      · simp only [setField, if_neg hak, List.map_cons, ih, List.mem_cons]
        by_cases hk : k ∈ r.map Prod.fst
        · simp [hk, fun h : k = a => hak h.symm]
        · simp only [hk, if_false, or_false]
          rw [if_neg (fun h : k = a => hak h.symm), List.cons_append]

theorem nodup_setField (doc : State) (k : String) (v : JValue)
    (h : (doc.map Prod.fst).Nodup) : ((setField doc k v).map Prod.fst).Nodup := by
  rw [map_fst_setField]
  by_cases hk : k ∈ doc.map Prod.fst
  · rwa [if_pos hk]
  · rw [if_neg hk]
    simp [List.nodup_append, h, hk]

theorem removeField_sublist (doc : State) (k : String) :
    (removeField doc k).Sublist doc := by
  induction doc with
  | nil => simp [removeField]
  | cons p r ih =>
      obtain ⟨a, w⟩ := p
      by_cases hak : a = k
      · simp only [removeField, if_pos hak]
        exact (List.sublist_cons_self _ _)
      · simp only [removeField, if_neg hak]
        exact ih.cons₂ _

theorem nodup_removeField (doc : State) (k : String)
    (h : (doc.map Prod.fst).Nodup) : ((removeField doc k).map Prod.fst).Nodup :=
  h.sublist ((removeField_sublist doc k).map Prod.fst)

theorem nodup_setOrDrop (doc : State) (k : String) (v : Option JValue)
    (h : (doc.map Prod.fst).Nodup) : ((setOrDrop doc k v).map Prod.fst).Nodup := by
  cases v with
  | none => exact nodup_removeField doc k h
  | some x => exact nodup_setField doc k x h

theorem nodup_mergeFields (patch : State) : ∀ (doc : State),
    (doc.map Prod.fst).Nodup → ((mergeFields doc patch).map Prod.fst).Nodup := by
  induction patch with
  | nil => intro doc h; exact h
  | cons q ps ih =>
      intro doc h
      rw [mergeFields_cons]
      exact ih _ (nodup_setField doc q.1 q.2 h)

/-- Witness for C3: on a loadable state whose call stack already holds
ten entries, `invokeChild` reports the maximum-nesting-depth error. -/
theorem C3_witness :
    StateManager.invokeChild
      (some [("workflow", .str "m"), ("step", .str "s"),
             ("status", .str "running"), ("depth", .num 10),
             ("call_stack", .arr [.null, .null, .null, .null, .null,
                                  .null, .null, .null, .null, .null])])
      "child" "init" [] none none "2025-01-01T00:00:00.000Z" =
      .error "Maximum nesting depth (10) exceeded" :=
  ((C3_invoke_nesting_bound
      [("workflow", .str "m"), ("step", .str "s"),
       ("status", .str "running"), ("depth", .num 10),
       ("call_stack", .arr [.null, .null, .null, .null, .null,
                            .null, .null, .null, .null, .null])]
      [.null, .null, .null, .null, .null, .null, .null, .null, .null, .null]
      "child" "init" [] none none "2025-01-01T00:00:00.000Z"
      (by rfl) (by rfl) (by rfl)).1 (by rfl)).1

theorem setOrDrop_some (doc : State) (k : String) (x : JValue) :
    setOrDrop doc k (some x) = setField doc k x := rfl

/-- **C4** — `returnToParent(result)` fails with the not-nested error on
an empty call stack, leaving the persisted state unchanged; on a
non-empty stack it pops the top entry, merges the caller-supplied result
fields into the state (the engine passes its one-shot `_child_result`
marker through this same bag), restores `workflow` from the popped entry,
sets `step` to the entry's `resume_to` — or its recorded step when no
resume target was given (the `??` in `jsNullish`) — sets status
`running`, decrements `depth` by 1, and clears `nested`. -/
theorem C4_return_to_parent (doc : State) (result : List (String × JValue))
    (now : String)
    (hload : StateManager.load (some doc) = .ok doc) :
    (StateManager.getCallStackArr doc = .ok [] →
      StateManager.returnToParent (some doc) result now =
        .error "Cannot return to parent: not in nested workflow" ∧
      diskAfter (some doc) (StateManager.returnToParent (some doc) result now) =
        some doc) ∧
    (∀ xs pw rs,
      getField doc "call_stack" = some (.arr xs) → xs ≠ [] →
      jGet (xs.getLastD .null) "workflow" = some (.str pw) →
      jsNullish (jGet (xs.getLastD .null) "resume_to")
          (jGet (xs.getLastD .null) "step") = some (.str rs) →
      (doc.map Prod.fst).Nodup →
      (result.map Prod.fst).Nodup →
      isDatetime now = true →
      optStr (getField result "sprint_id") = true →
      optStr (getField result "current_task_id") = true →
      validTasks (getField result "tasks") = true →
      ∃ s, StateManager.returnToParent (some doc) result now = .ok s ∧
        getField s "workflow" = some (.str pw) ∧
        getField s "step" = some (.str rs) ∧
        getField s "status" = some (.str "running") ∧
        getField s "depth" = some (.num ((xs.length - 1 : Nat))) ∧
        getField s "call_stack" = some (.arr xs.dropLast) ∧
        getField s "nested" = none ∧
        getField s "updated_at" = some (.str now) ∧
        (∀ k, k ∉ (["workflow", "step", "status", "depth", "call_stack",
                    "nested", "updated_at"] : List String) →
          getField s k =
            match getField result k with
            | some v => some v
            | none => getField doc k)) := by
  have hv : validDoc doc = true := validDoc_of_load doc hload
  constructor
  · intro hempty
    have herr : StateManager.returnToParent (some doc) result now =
        .error "Cannot return to parent: not in nested workflow" := by
      rw [StateManager.returnToParent, hload]
      dsimp only
      rw [hempty]
      rfl
    refine ⟨herr, ?_⟩
    rw [herr]
    rfl
  · intro xs pw rs hcs hne hpw hrs hnodupDoc hnodupRes hdt hrSp hrCt hrTk
    have hgcs : StateManager.getCallStackArr doc = .ok xs := by
      rw [StateManager.getCallStackArr, hcs]
    rw [StateManager.returnToParent, hload]
    dsimp only
    rw [hgcs]
    dsimp only
    rw [if_neg (by simpa using hne)]
    rw [hpw, hrs, setOrDrop_some, setOrDrop_some]
    set merged : State := mergeFields doc result with hmerged
    set withCore : State :=
      setField
        (setField
          (setField (setField (setField merged "workflow" (.str pw)) "step" (.str rs))
            "status" (.str "running"))
          "depth" (.num (xs.dropLast.length : Nat)))
        "call_stack" (.arr xs.dropLast) with hwithCore
    have hnodupMerged : (merged.map Prod.fst).Nodup :=
      nodup_mergeFields result doc hnodupDoc
    have hnodupCore : (withCore.map Prod.fst).Nodup := by
      rw [hwithCore]
      exact nodup_setField _ _ _ (nodup_setField _ _ _ (nodup_setField _ _ _
        (nodup_setField _ _ _ (nodup_setField _ _ _ hnodupMerged))))
    have hpeel : ∀ q, q ≠ "updated_at" → q ≠ "nested" →
        getField (setField (removeField withCore "nested") "updated_at" (.str now)) q =
          getField withCore q := by
      intro q h1 h2
      rw [getField_setField, if_neg h1, getField_removeField_ne _ _ _ h2]
    have hcore : ∀ q, q ≠ "call_stack" → q ≠ "depth" → q ≠ "status" →
        q ≠ "step" → q ≠ "workflow" → getField withCore q = getField merged q := by
      intro q h1 h2 h3 h4 h5
      rw [hwithCore, getField_setField, if_neg h1, getField_setField, if_neg h2,
          getField_setField, if_neg h3, getField_setField, if_neg h4,
          getField_setField, if_neg h5]
    have hW : getField withCore "workflow" = some (.str pw) := by
      rw [hwithCore, getField_setField, if_neg (by decide), getField_setField,
          if_neg (by decide), getField_setField, if_neg (by decide),
          getField_setField, if_neg (by decide), getField_setField, if_pos rfl]
    have hS : getField withCore "step" = some (.str rs) := by
      rw [hwithCore, getField_setField, if_neg (by decide), getField_setField,
          if_neg (by decide), getField_setField, if_neg (by decide),
          getField_setField, if_pos rfl]
    have hSt : getField withCore "status" = some (.str "running") := by
      rw [hwithCore, getField_setField, if_neg (by decide), getField_setField,
          if_neg (by decide), getField_setField, if_pos rfl]
    have hD : getField withCore "depth" = some (.num (xs.dropLast.length : Nat)) := by
      rw [hwithCore, getField_setField, if_neg (by decide), getField_setField,
          if_pos rfl]
    have hC : getField withCore "call_stack" = some (.arr xs.dropLast) := by
      rw [hwithCore, getField_setField, if_pos rfl]
    have hMerged : ∀ q, getField merged q =
        match getField result q with
        | some v => some v
        | none => getField doc q := by
      intro q
      rw [hmerged]
      exact getField_mergeFields result doc q hnodupRes
    have hv' : validDoc (setField (removeField withCore "nested") "updated_at"
        (.str now)) = true := by
      simp only [validDoc, Bool.and_eq_true] at hv ⊢
      obtain ⟨⟨⟨⟨⟨⟨_hA, _hB⟩, _hC⟩, _hD⟩, hE⟩, hF⟩, hG⟩ := hv
      rw [hpeel "workflow" (by decide) (by decide), hW,
          hpeel "step" (by decide) (by decide), hS,
          hpeel "status" (by decide) (by decide), hSt,
          getField_setField, if_pos rfl,
          hpeel "sprint_id" (by decide) (by decide),
          hcore "sprint_id" (by decide) (by decide) (by decide) (by decide) (by decide),
          hMerged "sprint_id",
          hpeel "current_task_id" (by decide) (by decide),
          hcore "current_task_id" (by decide) (by decide) (by decide) (by decide) (by decide),
          hMerged "current_task_id",
          hpeel "tasks" (by decide) (by decide),
          hcore "tasks" (by decide) (by decide) (by decide) (by decide) (by decide),
          hMerged "tasks"]
      refine ⟨⟨⟨⟨⟨⟨rfl, rfl⟩, rfl⟩, by simp [isOptDatetime, hdt]⟩, ?_⟩, ?_⟩, ?_⟩
      · cases hres : getField result "sprint_id" with
        | none => exact hE
        | some v => rw [hres] at hrSp; exact hrSp
      · cases hres : getField result "current_task_id" with
        | none => exact hF
        | some v => rw [hres] at hrCt; exact hrCt
      · cases hres : getField result "tasks" with
        | none => exact hG
        | some v => rw [hres] at hrTk; exact hrTk
    rw [StateManager.save, if_pos (by rw [hv'])]
    refine ⟨_, rfl, ?_, ?_, ?_, ?_, ?_, ?_, ?_, ?_⟩
    · rw [hpeel "workflow" (by decide) (by decide), hW]
    · rw [hpeel "step" (by decide) (by decide), hS]
    · rw [hpeel "status" (by decide) (by decide), hSt]
    · rw [hpeel "depth" (by decide) (by decide), hD, List.length_dropLast]
    · rw [hpeel "call_stack" (by decide) (by decide), hC]
    · rw [getField_setField, if_neg (by decide)]
      exact getField_removeField_self _ _ hnodupCore
    · rw [getField_setField, if_pos rfl]
    · intro k hk
      simp only [List.mem_cons, List.not_mem_nil, or_false] at hk
      push_neg at hk
      obtain ⟨h1, h2, h3, h4, h5, h6, h7⟩ := hk
      rw [hpeel k h7 h6, hcore k h5 h4 h3 h2 h1, hMerged k]

/-- Witness for C4: returning from a nested state resumes the parent at
the recorded resume step and merges the result; returning at depth 0
fails with the not-nested error. -/
theorem C4_witness :
    (StateManager.returnToParent
        (some [("workflow", .str "m"), ("step", .str "s"),
               ("status", .str "running"), ("depth", .num 0),
               ("call_stack", .arr [])])
        [("result", .str "ok")] "2025-01-01T00:00:00.000Z" =
      .error "Cannot return to parent: not in nested workflow") ∧
    ((StateManager.returnToParent
        (some [("workflow", .str "child"), ("step", .str "done"),
               ("status", .str "running"), ("depth", .num 1),
               ("call_stack", .arr [.obj [("workflow", .str "m"),
                 ("step", .str "invoke_site"), ("resume_to", .str "review")]])])
        [("result", .str "ok")] "2025-01-01T00:00:00.000Z").map
      (fun s => (getField s "workflow", getField s "step", getField s "depth",
                 getField s "result")) =
      .ok (some (.str "m"), some (.str "review"), some (.num 0),
           some (.str "ok"))) := by
  constructor
  · exact ((C4_return_to_parent _ [("result", .str "ok")] "2025-01-01T00:00:00.000Z"
      (by rfl)).1 (by rfl)).1
  · obtain ⟨s, hs, hw, hstep, _, hd, _, _, _, hframe⟩ :=
      (C4_return_to_parent
        [("workflow", .str "child"), ("step", .str "done"),
         ("status", .str "running"), ("depth", .num 1),
         ("call_stack", .arr [.obj [("workflow", .str "m"),
           ("step", .str "invoke_site"), ("resume_to", .str "review")]])]
        [("result", .str "ok")] "2025-01-01T00:00:00.000Z"
        (by rfl)).2
        [.obj [("workflow", .str "m"), ("step", .str "invoke_site"),
               ("resume_to", .str "review")]] "m" "review"
        (by rfl) (by simp) (by rfl) (by rfl) (by decide) (by decide) (by rfl)
        (by rfl) (by rfl) (by rfl)
    rw [hs]
    have hr := hframe "result" (by decide)
    simp only [Except.map, hw, hstep, hd, hr]
    rfl

/-! ## Gate evaluator (`engine/evaluator.ts`)

`evaluateCriteria` matches the (trimmed) condition string against a fixed
sequence of anchored regular expressions.  Each regex is embedded as a
deterministic character-list parser.  Determinism is justified pattern by
pattern: every capture group (`\w+`, `\d+`, `[^'"]*`, dotted paths) is
followed by a character its own class excludes, so the greedy maximal
munch is the only capture backtracking could produce, and each operator
alternation is tried longest-first, which coincides with the regex's
alternation order because the text after a too-short operator can never
parse (details in the comments below). -/

/-- `\w` (JS word character: ASCII letter, digit or underscore). -/
def isWordChar (c : Char) : Bool := c.isAlphanum || c = '_'

/-- Maximal non-empty `\w+` run. -/
def takeWord (cs : List Char) : Option (List Char × List Char) :=
  let w := cs.takeWhile isWordChar
  if w.isEmpty then none else some (w, cs.drop w.length)

/-- `\s*` (greedy). -/
def skipWs (cs : List Char) : List Char := cs.dropWhile Char.isWhitespace

/-- A literal fragment of the pattern. -/
def expectLit : List Char → List Char → Option (List Char)
  | [], cs => some cs
  | _ :: _, [] => none
  | l :: ls, c :: cs => if c = l then expectLit ls cs else none

/-- Maximal non-empty `\d+` run, as a number (`parseInt(_, 10)`). -/
def takeDigits (cs : List Char) : Option (Nat × List Char) :=
  let d := cs.takeWhile Char.isDigit
  if d.isEmpty then none else some (digitsToNat d, cs.drop d.length)

/-- An operator alternation, candidates longest-first (equivalent to the
regex's left-to-right order with backtracking, because after a too-short
candidate the remaining `=`/`<`/`>` character can never start `\s*\d+$`
or the literal tail). -/
def takeOp : List String → List Char → Option (String × List Char)
  | [], _ => none
  | o :: os, cs =>
      match expectLit o.data cs with
      | some rest => some (o, rest)
      | none => takeOp os cs

/-- A single quote character (`['"]`). -/
def takeQuote (cs : List Char) : Option (List Char) :=
  match cs with
  | c :: rest => if c = '\'' || c = '"' then some rest else none
  | [] => none

/-- `['"]?([^'"]*)['"]?$`: an optional quote, the quote-free body (the
capture), an optional quote, end of string. -/
def parseRhsLiteral (cs : List Char) : Option String :=
  let cs1 := match cs with
    | c :: rest => if c = '\'' || c = '"' then rest else cs
    | [] => []
  let body := cs1.takeWhile (fun c => !(c = '\'' || c = '"'))
  let rest := cs1.drop body.length
  match rest with
  | [] => some (String.mk body)
  | [c] => if c = '\'' || c = '"' then some (String.mk body) else none
  | _ => none

/-- `(?:\.\w+)*`, greedy: keep consuming `.word` groups.  The fuel is an
upper bound on the number of groups (each consumes at least two
characters). -/
def takeDottedAux : Nat → List Char → List Char → (List Char × List Char)
  | 0, acc, cs => (acc, cs)
  | fuel + 1, acc, cs =>
      match cs with
      | '.' :: rest =>
          (match takeWord rest with
           | some (w, rest') => takeDottedAux fuel (acc ++ '.' :: w) rest'
           | none => (acc, cs))
      | _ => (acc, cs)

/-- `(\w+(?:\.\w+)*)`: a dotted field path. -/
def takeDottedPath (cs : List Char) : Option (List Char × List Char) :=
  match takeWord cs with
  | none => none
  | some (w, rest) => some (takeDottedAux rest.length w rest)

/-- `^state\.(\w+)\s*&&\s*state\.\1\.length\s*(>|>=|===|==)\s*(\d+)$`. -/
def matchAndLength (cs : List Char) : Option (String × String × Nat) := do
  let cs ← expectLit "state.".data cs
  let (w, cs) ← takeWord cs
  let cs := skipWs cs
  let cs ← expectLit "&&".data cs
  let cs := skipWs cs
  let cs ← expectLit "state.".data cs
  let cs ← expectLit w cs
  let cs ← expectLit ".length".data cs
  let cs := skipWs cs
  let (op, cs) ← takeOp ["===", ">=", "==", ">"] cs
  let cs := skipWs cs
  let (n, cs) ← takeDigits cs
  if cs.isEmpty then some (String.mk w, op, n) else none

/-- `^!state\.(\w+)\s*\|\|\s*state\.\1\.length\s*(===|==)\s*0$`. -/
def matchOrEmpty (cs : List Char) : Option String := do
  let cs ← expectLit "!state.".data cs
  let (w, cs) ← takeWord cs
  let cs := skipWs cs
  let cs ← expectLit "||".data cs
  let cs := skipWs cs
  let cs ← expectLit "state.".data cs
  let cs ← expectLit w cs
  let cs ← expectLit ".length".data cs
  let cs := skipWs cs
  let (_op, cs) ← takeOp ["===", "=="] cs
  let cs := skipWs cs
  let cs ← expectLit "0".data cs
  if cs.isEmpty then some (String.mk w) else none

/-- `^state\.(\w+(?:\.\w+)*)\s*(===|!==|==|!=)\s*['"]?([^'"]*)['"]?$`. -/
def matchSimpleCompare (cs : List Char) : Option (String × String × String) := do
  let cs ← expectLit "state.".data cs
  let (p, cs) ← takeDottedPath cs
  let cs := skipWs cs
  let (op, cs) ← takeOp ["===", "!==", "==", "!="] cs
  let cs := skipWs cs
  let lit ← parseRhsLiteral cs
  some (String.mk p, op, lit)

/-- `^state\.(\w+(?:\.\w+)*)\.length\s*(>|>=|<|<=|===|==)\s*(\d+)$`.
The greedy dotted chain swallows the final `.length` component; regex
backtracking surrenders exactly that one group, so the pattern matches
iff the chain has at least two components and ends in `length`, the
capture being the chain without its last component. -/
def matchLengthCompare (cs : List Char) : Option (String × String × Nat) := do
  let cs ← expectLit "state.".data cs
  let (p, cs) ← takeDottedPath cs
  let comps := splitOnDot (String.mk p)
  if comps.length < 2 || comps.getLast? ≠ some "length" then none
  else do
    let cs := skipWs cs
    let (op, cs) ← takeOp ["===", "==", ">=", "<=", ">", "<"] cs
    let cs := skipWs cs
    let (n, cs) ← takeDigits cs
    if cs.isEmpty then
      some (String.intercalate "." comps.dropLast, op, n)
    else none

/-- `^state\.(\w+)\?\.every\((\w+)\s*=>\s*\2\.(\w+)\s*(===|==)\s*['"]([^'"]+)['"]\)$`
(`opt = true`) and the same without `?` (`opt = false`). -/
def matchEvery (opt : Bool) (cs : List Char) : Option (String × String × String) := do
  let cs ← expectLit "state.".data cs
  let (w1, cs) ← takeWord cs
  let cs ← expectLit (if opt then "?.every(" else ".every(").data cs
  let (v, cs) ← takeWord cs
  let cs := skipWs cs
  let cs ← expectLit "=>".data cs
  let cs := skipWs cs
  let cs ← expectLit v cs
  let cs ← expectLit ".".data cs
  let (w3, cs) ← takeWord cs
  let cs := skipWs cs
  let (_op, cs) ← takeOp ["===", "=="] cs
  let cs := skipWs cs
  let cs ← takeQuote cs
  let body := cs.takeWhile (fun c => !(c = '\'' || c = '"'))
  if body.isEmpty then none
  else do
    let cs := cs.drop body.length
    let cs ← takeQuote cs
    let cs ← expectLit ")".data cs
    if cs.isEmpty then some (String.mk w1, String.mk w3, String.mk body) else none

/-- `^state\.(\w+)\?\.some\((\w+)\s*=>\s*\2\.(\w+)\s*(!==|!=)\s*['"]([^'"]+)['"]\)$`
(`opt = true`) and the same without `?` (`opt = false`). -/
def matchSomePat (opt : Bool) (cs : List Char) : Option (String × String × String) := do
  let cs ← expectLit "state.".data cs
  let (w1, cs) ← takeWord cs
  let cs ← expectLit (if opt then "?.some(" else ".some(").data cs
  let (v, cs) ← takeWord cs
  let cs := skipWs cs
  let cs ← expectLit "=>".data cs
  let cs := skipWs cs
  let cs ← expectLit v cs
  let cs ← expectLit ".".data cs
  let (w3, cs) ← takeWord cs
  let cs := skipWs cs
  let (_op, cs) ← takeOp ["!==", "!="] cs
  let cs := skipWs cs
  let cs ← takeQuote cs
  let body := cs.takeWhile (fun c => !(c = '\'' || c = '"'))
  if body.isEmpty then none
  else do
    let cs := cs.drop body.length
    let cs ← takeQuote cs
    let cs ← expectLit ")".data cs
    if cs.isEmpty then some (String.mk w1, String.mk w3, String.mk body) else none

/-- `compareNumbers(a, op, b)` (unknown operators fall through to
`false`; the parsers above only produce the listed ones). -/
def compareNumbers (a : Int) (op : String) (b : Int) : Bool :=
  match op with
  | ">" => a > b
  | ">=" => a ≥ b
  | "<" => a < b
  | "<=" => a ≤ b
  | "===" => a = b
  | "==" => a = b
  | _ => false

/-- JS strict equality `v === s` against a string literal: true only for
an equal string (no coercion under `===`). -/
def jsStrictEqStr (v : Option JValue) (s : String) : Bool :=
  match v with
  | some (.str t) => t = s
  | _ => false

/-- `check.trim()`: strip whitespace from both ends. -/
def jsTrim (s : String) : List Char :=
  ((s.data.dropWhile Char.isWhitespace).reverse.dropWhile Char.isWhitespace).reverse

/-- `evaluateCriteria(check, state)`: try the eight patterns in source
order; the fallback logs `Unsupported gate expression` and returns
`false`.  The result is `(value, warned)`, the second component recording
whether the diagnostic `console.warn` fired. -/
def evaluateCriteria (check : String) (state : State) : Bool × Bool :=
  let expr := jsTrim check
  match matchAndLength expr with
  | some (field, op, n) =>
      let arr := getNestedValue (.obj state) field
      if !truthy arr then (false, false)
      else
        let len : Int := match arr with | some (.arr xs) => (xs.length : Int) | _ => 0
        (compareNumbers len op (n : Int), false)
  | none =>
  match matchOrEmpty expr with
  | some field =>
      let arr := getNestedValue (.obj state) field
      if !truthy arr then (true, false)
      else
        ((match arr with
          | some (.arr xs) => decide (xs.length = 0)
          | _ => true), false)
  | none =>
  match matchSimpleCompare expr with
  | some (path, op, expected) =>
      let value := getNestedValue (.obj state) path
      let isNot := op.data.contains '!'
      ((if isNot then !(jsToString value = expected)
        else jsToString value = expected), false)
  | none =>
  match matchLengthCompare expr with
  | some (path, op, n) =>
      let arr := getNestedValue (.obj state) path
      let len : Int := match arr with | some (.arr xs) => (xs.length : Int) | _ => 0
      (compareNumbers len op (n : Int), false)
  | none =>
  match matchEvery true expr with
  | some (field, itemField, lit) =>
      ((match getField state field with
        | some (.arr xs) => xs.all fun item => jsStrictEqStr (jGet item itemField) lit
        | _ => true), false)
  | none =>
  match matchEvery false expr with
  | some (field, itemField, lit) =>
      ((match getField state field with
        | some (.arr xs) => xs.all fun item => jsStrictEqStr (jGet item itemField) lit
        | _ => false), false)
  | none =>
  match matchSomePat true expr with
  | some (field, itemField, lit) =>
      ((match getField state field with
        | some (.arr xs) => xs.any fun item => !(jsStrictEqStr (jGet item itemField) lit)
        | _ => false), false)
  | none =>
  match matchSomePat false expr with
  | some (field, itemField, lit) =>
      ((match getField state field with
        | some (.arr xs) => xs.any fun item => !(jsStrictEqStr (jGet item itemField) lit)
        | _ => false), false)
  | none => (false, true)

/-- Does the condition string match any of the evaluator's recognized
shapes? -/
def criteriaRecognized (check : String) : Bool :=
  let expr := jsTrim check
  (matchAndLength expr).isSome || (matchOrEmpty expr).isSome ||
  (matchSimpleCompare expr).isSome || (matchLengthCompare expr).isSome ||
  (matchEvery true expr).isSome || (matchEvery false expr).isSome ||
  (matchSomePat true expr).isSome || (matchSomePat false expr).isSome

/-- A validated `GateDefinition`: the schema's cross-field refinement
guarantees each variant carries the fields its type requires (`check` for
`criteria`/`expression`, `path` for `file_exists`, `field`+`value` for
`status`), so the tagged variant is modelled directly. -/
inductive Gate where
  | manual : Gate
  | criteria (check : String) : Gate
  | expression (check : String) : Gate
  | file_exists (path : String) : Gate
  | status (field value : String) : Gate

/-- What `await snippetFn(fullContext)` (or `loader.load`) did. -/
inductive SnippetOutcome where
  | throws (msg : String) : SnippetOutcome
  | returns (v : JValue) : SnippetOutcome

/-- One hook invocation: outcome plus the accumulated `setState` patch. -/
structure HookCall where
  outcome : SnippetOutcome
  pendingPatch : List (String × JValue)

/-- The engine's environment: the project directory, the outcome of
`fs.access` existence checks, and the behaviour of each loaded snippet
hook (trusted project code, abstracted by hook id; no claim depends on a
hook reading its context). -/
structure Env where
  projectDir : String
  fileExists : String → Bool
  hooks : String → HookCall

/-- Path resolution in `evaluateFileExists`: absolute paths go through
unchanged, relative ones are joined to the project directory
(`path.join`'s separator normalisation is immaterial here). -/
def resolveGatePath (projectDir p : String) : String :=
  match p.data with
  | '/' :: _ => p
  | _ => projectDir ++ "/" ++ p

/-- `GateEvaluator.evaluate(gate, state)`. -/
def Gate.evaluate (env : Env) (g : Gate) (state : State) : Bool :=
  match g with
  | .manual => false
  | .criteria check => (evaluateCriteria check state).1
  | .expression check => (evaluateCriteria check state).1
  | .file_exists p => env.fileExists (resolveGatePath env.projectDir p)
  | .status f v => jsToString (getField state f) = v

/-! ## FSM executor (`engine/fsm.ts`, step-named revision) -/

/-- A step's `invoke` block (fields as the engine reads them:
`config.workflow`, `config.input` (childKey ↦ parent dot-path),
`config.output` (parentKey ↦ child dot-path), `config.on_complete`). -/
structure InvokeConfig where
  workflow : String
  input : Option (List (String × String))
  output : Option (List (String × String))
  on_complete : Option String

/-- A `StepDefinition`. -/
structure StepDef where
  id : String
  terminal : Option Bool
  on_enter : Option String
  on_exit : Option String
  invoke : Option InvokeConfig

/-- A transition's `gate`: a bare condition string (shorthand for a
`criteria` gate) or a full gate definition. -/
inductive TransGate where
  | check (s : String) : TransGate
  | gate (g : Gate) : TransGate

/-- A `TransitionDefinition`.  (`from`/`to` are Lean keywords/too
generic, hence `tfrom`/`tto`.) -/
structure Transition where
  tfrom : String
  tto : String
  priority : Option Int
  gate : Option TransGate

/-- A `WorkflowDefinition`. -/
structure Workflow where
  id : String
  steps : List StepDef
  transitions : List Transition

/-- `TransitionResult` (`from`/`to` are the `rfrom`/`rto` fields). -/
structure TransitionResult where
  success : Bool
  rfrom : String
  rto : String
  error : Option String
deriving DecidableEq

namespace FSM

/-- `canTakeTransition(transition, state)`: no gate means always
passable; a string gate is shorthand for `criteria`. -/
def canTakeTransition (env : Env) (t : Transition) (state : State) : Bool :=
  match t.gate with
  | none => true
  | some (.check s) => Gate.evaluate env (.criteria s) state
  | some (.gate g) => Gate.evaluate env g state

/-- `getOutgoingTransitions()`: all transitions whose `from` is the
current step, in declaration order. -/
def getOutgoingTransitions (wf : Workflow) (currentStep : String) : List Transition :=
  wf.transitions.filter fun t => t.tfrom = currentStep

/-- The sort key `(t.priority ?? 0)`. -/
def prioKey (t : Transition) : Int := t.priority.getD 0

/-- `getAvailableTransitions(state)`: keep, in declaration order, the
outgoing transitions whose gate passes, then sort ascending by
`(priority ?? 0)`.  `Array.prototype.sort` is stable, which `mergeSort`
models exactly. -/
def getAvailableTransitions (wf : Workflow) (currentStep : String) (env : Env)
    (state : State) : List Transition :=
  ((getOutgoingTransitions wf currentStep).filter
      (fun t => canTakeTransition env t state)).mergeSort
    (fun a b => decide (prioKey a ≤ prioKey b))

/-- Strict equality between a declared transition's `to` (a string) and
the requested target value (possibly `undefined` or a non-string produced
by a hook's redirect). -/
def strTargetEq (s : String) (target : Option JValue) : Bool :=
  match target with
  | some (.str t) => s = t
  | _ => false

/-- `findTransition(from, to)`. -/
def findTransition (wf : Workflow) (fromStep : String) (target : Option JValue) :
    Option Transition :=
  wf.transitions.find? fun t => t.tfrom = fromStep && strTargetEq t.tto target

/-- `transition(to, state)`: `NoSuchTransition` and `GateBlocked` are
reported as failed results; on success the executor's current-step
pointer becomes `to`.  Returns the result and the new current step. -/
def transition (wf : Workflow) (currentStep : String) (env : Env)
    (target : Option JValue) (state : State) : TransitionResult × String :=
  match findTransition wf currentStep target with
  | none =>
      ({ success := false, rfrom := currentStep, rto := jsToString target,
         error := some ("No transition from '" ++ currentStep ++ "' to '" ++
           jsToString target ++ "'") }, currentStep)
  | some t =>
      if canTakeTransition env t state then
        ({ success := true, rfrom := currentStep, rto := t.tto, error := none }, t.tto)
      else
        ({ success := false, rfrom := currentStep, rto := jsToString target,
           error := some ("Gate blocked transition to '" ++
             jsToString target ++ "'") }, currentStep)

/-- `getStepDefinition(currentStep)`. -/
def getStepDefinition (wf : Workflow) (currentStep : String) : Option StepDef :=
  wf.steps.find? fun s => s.id = currentStep

/-- `isTerminal()`: the current step's definition sets `terminal: true`
(`step?.terminal === true`). -/
def isTerminal (wf : Workflow) (currentStep : String) : Bool :=
  match getStepDefinition wf currentStep with
  | some s => s.terminal = some true
  | none => false

/-- `checkInvoke()`: the current step's `invoke` block, when declared. -/
def checkInvoke (wf : Workflow) (currentStep : String) : Option InvokeConfig :=
  (getStepDefinition wf currentStep).bind (·.invoke)

/-- `getInitialStep(workflow)`: the first declared step; a workflow with
no steps throws. -/
def getInitialStep (wf : Workflow) : Except String String :=
  match wf.steps with
  | [] => .error "Workflow has no steps"
  | s :: _ => .ok s.id

end FSM

/-- **C7** — `getAvailableTransitions(state)` returns exactly the
declared transitions whose `from` equals the current step and whose gate
passes (a transition with no gate is always eligible): the result is a
permutation of that filtered, declaration-ordered list, it is sorted
ascending by `(priority ?? 0)`, and within each priority value the
declaration order is preserved (stability), so declaration order breaks
ties. -/
theorem C7_available_transitions (wf : Workflow) (cur : String) (env : Env)
    (state : State) :
    ((FSM.getAvailableTransitions wf cur env state).Perm
      ((FSM.getOutgoingTransitions wf cur).filter
        (fun t => FSM.canTakeTransition env t state))) ∧
    (∀ t, t ∈ FSM.getAvailableTransitions wf cur env state ↔
      (t ∈ wf.transitions ∧ t.tfrom = cur ∧
        FSM.canTakeTransition env t state = true)) ∧
    ((FSM.getAvailableTransitions wf cur env state).Pairwise
      (fun a b => FSM.prioKey a ≤ FSM.prioKey b)) ∧
    (∀ p : Int, (FSM.getAvailableTransitions wf cur env state).filter
        (fun t => FSM.prioKey t = p) =
      ((FSM.getOutgoingTransitions wf cur).filter
        (fun t => FSM.canTakeTransition env t state)).filter
        (fun t => FSM.prioKey t = p)) := by
  have htrans : ∀ a b c : Transition,
      decide (FSM.prioKey a ≤ FSM.prioKey b) →
      decide (FSM.prioKey b ≤ FSM.prioKey c) →
      decide (FSM.prioKey a ≤ FSM.prioKey c) := by
    intro a b c hab hbc
    simp only [decide_eq_true_iff] at *
    omega
  have htotal : ∀ a b : Transition,
      decide (FSM.prioKey a ≤ FSM.prioKey b) ||
      decide (FSM.prioKey b ≤ FSM.prioKey a) := by
    intro a b
    simp only [Bool.or_eq_true, decide_eq_true_iff]
    omega
  have hperm := List.mergeSort_perm
    ((FSM.getOutgoingTransitions wf cur).filter
      (fun t => FSM.canTakeTransition env t state))
    (fun a b => decide (FSM.prioKey a ≤ FSM.prioKey b))
  refine ⟨hperm, ?_, ?_, ?_⟩
  · intro t
    rw [FSM.getAvailableTransitions, hperm.mem_iff]
    simp only [List.mem_filter, FSM.getOutgoingTransitions, decide_eq_true_iff,
               and_assoc]
    try tauto
  · have hs := List.sorted_mergeSort htrans htotal
      ((FSM.getOutgoingTransitions wf cur).filter
        (fun t => FSM.canTakeTransition env t state))
    exact hs.imp fun h => of_decide_eq_true h
  · intro p
    have hall : ∀ t ∈ ((FSM.getOutgoingTransitions wf cur).filter
        (fun t => FSM.canTakeTransition env t state)).filter
        (fun t => FSM.prioKey t = p), FSM.prioKey t = p := by
      intro t ht
      exact of_decide_eq_true (List.mem_filter.mp ht).2
    have hcpair : (((FSM.getOutgoingTransitions wf cur).filter
        (fun t => FSM.canTakeTransition env t state)).filter
        (fun t => FSM.prioKey t = p)).Pairwise
        (fun a b => decide (FSM.prioKey a ≤ FSM.prioKey b) = true) := by
      apply List.pairwise_of_forall_mem_list
      intro a ha b hb
      rw [hall a ha, hall b hb]
      simp
    have hsub := List.sublist_mergeSort htrans htotal hcpair
      (List.filter_sublist _)
    have hself : (((FSM.getOutgoingTransitions wf cur).filter
        (fun t => FSM.canTakeTransition env t state)).filter
        (fun t => FSM.prioKey t = p)).filter (fun t => FSM.prioKey t = p) =
        ((FSM.getOutgoingTransitions wf cur).filter
          (fun t => FSM.canTakeTransition env t state)).filter
          (fun t => FSM.prioKey t = p) := by
      rw [List.filter_eq_self]
      intro a ha
      exact decide_eq_true (hall a ha)
    have hsub2 := hsub.filter (fun t => decide (FSM.prioKey t = p))
    rw [hself] at hsub2
    have hlen := (hperm.filter (fun t => decide (FSM.prioKey t = p))).length_eq
    exact (hsub2.eq_of_length hlen.symm).symm

/-- **C8** — For every condition string outside the evaluator's
recognized shapes, `evaluateCriteria` returns `false` and emits the
`Unsupported gate expression` diagnostic; no path throws (the function is
total by construction). -/
theorem C8_unrecognized_criteria_safe (check : String) (state : State)
    (h : criteriaRecognized check = false) :
    evaluateCriteria check state = (false, true) := by
  rw [criteriaRecognized] at h
  simp only [Bool.or_eq_false_iff] at h
  obtain ⟨⟨⟨⟨⟨⟨⟨h1, h2⟩, h3⟩, h4⟩, h5⟩, h6⟩, h7⟩, h8⟩ := h
  have e1 : matchAndLength (jsTrim check) = none := by
    cases hx : matchAndLength (jsTrim check) with
    | none => rfl
    | some v => rw [hx] at h1; cases h1
  have e2 : matchOrEmpty (jsTrim check) = none := by
    cases hx : matchOrEmpty (jsTrim check) with
    | none => rfl
    | some v => rw [hx] at h2; cases h2
  have e3 : matchSimpleCompare (jsTrim check) = none := by
    cases hx : matchSimpleCompare (jsTrim check) with
    | none => rfl
    | some v => rw [hx] at h3; cases h3
  have e4 : matchLengthCompare (jsTrim check) = none := by
    cases hx : matchLengthCompare (jsTrim check) with
    | none => rfl
    | some v => rw [hx] at h4; cases h4
  have e5 : matchEvery true (jsTrim check) = none := by
    cases hx : matchEvery true (jsTrim check) with
    | none => rfl
    | some v => rw [hx] at h5; cases h5
  have e6 : matchEvery false (jsTrim check) = none := by
    cases hx : matchEvery false (jsTrim check) with
    | none => rfl
    | some v => rw [hx] at h6; cases h6
  have e7 : matchSomePat true (jsTrim check) = none := by
    cases hx : matchSomePat true (jsTrim check) with
    | none => rfl
    | some v => rw [hx] at h7; cases h7
  have e8 : matchSomePat false (jsTrim check) = none := by
    cases hx : matchSomePat false (jsTrim check) with
    | none => rfl
    | some v => rw [hx] at h8; cases h8
  rw [evaluateCriteria]
  simp only [e1, e2, e3, e4, e5, e6, e7, e8]

/-- Witness for C8: an arbitrary-code-looking condition string is not
recognized and safely evaluates to `false` with a diagnostic. -/
theorem C8_witness :
    evaluateCriteria "require('fs').rmSync('/')" [("tasks", .arr [])] =
      (false, true) :=
  C8_unrecognized_criteria_safe "require('fs').rmSync('/')"
    [("tasks", .arr [])] (by decide)

/-! ## Snippet executor (`snippets/executor.ts`)

A hook run is abstracted as its observable behaviour (`SnippetOutcome`,
declared with the environment above): either the loaded function (or the
loader) threw, or it returned some JS value; alongside, the patch bag the
hook queued through `ctx.setState` during the run. -/

/-- The typed `SnippetResult` the engine consumes: the four recognized
shapes, with the fields the engine reads (`reason`, `patch`, `to`) kept
as the raw values the hook supplied. -/
inductive SnippetResultM where
  | ok : SnippetResultM
  | abort (reason : Option JValue) : SnippetResultM
  | patch (p : List (String × JValue)) : SnippetResultM
  | transition (target : Option JValue) (reason : Option JValue) : SnippetResultM

/-- Spreading a value into an object literal (`{...v}`): an object
contributes its fields, a primitive contributes nothing.  (A string would
spread into index properties; no claim involves string-valued `patch`
fields.) -/
def objFields : Option JValue → List (String × JValue)
  | some (.obj fs) => fs
  | _ => []

/-- Is the returned value one of the four recognized result shapes
(`!result || typeof result !== 'object' || !('type' in result)` followed
by `validTypes.includes(result.type)`)?  Arrays pass the `typeof` test
but have no `type` property. -/
def recognizedResultShape (v : JValue) : Bool :=
  match v with
  | .obj fs =>
      match getField fs "type" with
      | some (.str t) => t = "ok" || t = "abort" || t = "patch" || t = "transition"
      | _ => false
  | _ => false

/-- `SnippetExecutor.execute(snippetId, contextParts)`: a throw anywhere
in the `try` becomes an abort carrying the thrown message; a malformed
result becomes an abort carrying a diagnostic; a queued `setState` patch
is folded into `ok`/`patch` results. -/
def SnippetExecutor.execute (snippetId : String) (call : HookCall) :
    SnippetResultM :=
  match call.outcome with
  | .throws msg => .abort (some (.str msg))
  | .returns v =>
      match v with
      | .obj fs =>
          match getField fs "type" with
          | some (.str t) =>
              if t = "ok" then
                if call.pendingPatch.isEmpty then .ok
                else .patch call.pendingPatch
              else if t = "abort" then .abort (getField fs "reason")
              else if t = "patch" then
                if call.pendingPatch.isEmpty then
                  .patch (objFields (getField fs "patch"))
                else
                  .patch (mergeFields call.pendingPatch
                    (objFields (getField fs "patch")))
              else if t = "transition" then
                .transition (getField fs "to") (getField fs "reason")
              else
                .abort (some (.str ("Snippet '" ++ snippetId ++
                  "' returned unknown type: " ++ t)))
          | some tv =>
              .abort (some (.str ("Snippet '" ++ snippetId ++
                "' returned unknown type: " ++ jsToString (some tv))))
          | none =>
              .abort (some (.str ("Snippet '" ++ snippetId ++
                "' returned invalid result")))
      | _ =>
          .abort (some (.str ("Snippet '" ++ snippetId ++
            "' returned invalid result")))

/-- Does the executor's result carry an abort with a present reason? -/
def abortWithReason : SnippetResultM → Bool
  | .abort (some _) => true
  | _ => false

/-- **C9** — When a snippet hook throws, or returns any value outside the
four recognized result shapes, `SnippetExecutor.execute` yields an abort
result carrying a diagnostic reason instead of propagating the failure. -/
theorem C9_hook_failures_become_aborts (snippetId : String) :
    (∀ msg patch,
      abortWithReason (SnippetExecutor.execute snippetId ⟨.throws msg, patch⟩) =
        true) ∧
    (∀ v patch, recognizedResultShape v = false →
      abortWithReason (SnippetExecutor.execute snippetId ⟨.returns v, patch⟩) =
        true) := by
  constructor
  · intro msg patch
    rfl
  · intro v patch hshape
    cases v with
    | obj fs =>
        rw [recognizedResultShape] at hshape
        rw [SnippetExecutor.execute]
        dsimp only
        cases htv : getField fs "type" with
        | none => rfl
        | some tv =>
            rw [htv] at hshape
            cases tv with
            | str t =>
                simp only [Bool.or_eq_false_iff] at hshape
                obtain ⟨⟨⟨hok, hab⟩, hpa⟩, htr⟩ := hshape
                dsimp only
                rw [if_neg (of_decide_eq_false hok),
                    if_neg (of_decide_eq_false hab),
                    if_neg (of_decide_eq_false hpa),
                    if_neg (of_decide_eq_false htr)]
                rfl
            | null => rfl
            | bool b => rfl
            | num n => rfl
            | arr xs => rfl
            | obj gs => rfl
    | null => rfl
    | bool b => rfl
    | num n => rfl
    | str s => rfl
    | arr xs => rfl

/-- Witness for C9: a hook that throws and a hook that returns a bare
number both come back as aborts with a reason. -/
theorem C9_witness :
    abortWithReason (SnippetExecutor.execute "on_enter_hook"
      ⟨.throws "boom", []⟩) = true ∧
    abortWithReason (SnippetExecutor.execute "on_enter_hook"
      ⟨.returns (.num 3), []⟩) = true ∧
    abortWithReason (SnippetExecutor.execute "on_enter_hook"
      ⟨.returns (.obj [("type", .str "explode")]), []⟩) = true :=
  ⟨(C9_hook_failures_become_aborts "on_enter_hook").1 "boom" [],
   (C9_hook_failures_become_aborts "on_enter_hook").2 (.num 3) [] (by decide),
   (C9_hook_failures_become_aborts "on_enter_hook").2
     (.obj [("type", .str "explode")]) [] (by decide)⟩

/-! ## Engine (`engine/lifecycle.ts`, nesting-capable revision)

The engine owns the loaded protocol (its workflows map), the FSM
executor's bound workflow and current-step pointer, the state manager's
disk/cache (one value: they coincide after every operation), and the
transition log.  A thrown error after an already-persisted intermediate
write (e.g. `getWorkflow` failing after `returnToParent` saved) is
modelled as a plain error: no claim observes the disk across such a
throw. -/

inductive EngineStatus where
  | uninitialized : EngineStatus
  | loading : EngineStatus
  | ready : EngineStatus
  | running : EngineStatus
  | waiting : EngineStatus
  | halted : EngineStatus
  | completed : EngineStatus
  | failed : EngineStatus
  | invoking : EngineStatus
deriving DecidableEq

/-- A `TransitionLogEntry` (`from`/`to`/`type`/`gate` prefixed with `l`
to avoid keyword clashes). -/
structure LogEntry where
  workflow : String
  lfrom : String
  lto : String
  ltype : Option String
  lgate : Option TransGate

/-- `TransitionLog.maxEntries`. -/
def maxEntries : Nat := 1000

/-- `TransitionLog.append`: append, then trim the oldest entries past the
cap (the write itself is atomic, modelled as replacing the list). -/
def logAppend (log : List LogEntry) (e : LogEntry) : List LogEntry :=
  let entries := log ++ [e]
  if entries.length > maxEntries then entries.drop (entries.length - maxEntries)
  else entries

/-- The `ArcanumEngine` instance state. -/
structure Engine where
  status : EngineStatus
  error : Option String
  protocol : List (String × Workflow)
  wf : Workflow
  fsmStep : String
  disk : Option State
  log : List LogEntry

namespace Engine

/-- `ensureReady()`. -/
def ensureReady (e : Engine) : Except String Unit :=
  if e.status = .uninitialized then
    .error "Engine not initialized. Call initialize() first."
  else if e.status = .failed then
    .error ("Engine failed: " ++ (match e.error with
      | some m => m
      | none => "undefined"))
  else .ok ()

/-- `getWorkflow(id)`: look the id up in the protocol's workflows map. -/
def getWorkflowDef (e : Engine) (id : String) : Except String Workflow :=
  match e.protocol.find? (fun kv => kv.1 = id) with
  | some kv => .ok kv.2
  | none => .error ("Workflow not found: " ++ id)

/-- `updateState(updates)`: merge the patch over the current state, stamp
`updated_at`, save (which re-stamps and re-validates). -/
def updateState (e : Engine) (patch : List (String × JValue)) (now : String) :
    Except String Engine :=
  match e.ensureReady with
  | .error msg => .error msg
  | .ok _ =>
  match StateManager.getState e.disk with
  | .error msg => .error msg
  | .ok state =>
      let newState := setField (mergeFields state patch) "updated_at" (.str now)
      match StateManager.save newState now with
      | .error msg => .error msg
      | .ok saved => .ok { e with disk := some saved }

/-- `(state.depth ?? 0) > 0`.  (A non-numeric, non-nullish `depth` would
go through JS relational coercion; the depth/call-stack invariant keeps
this field numeric in every state the claims quantify over.) -/
def depthGtZero (doc : State) : Bool :=
  match getField doc "depth" with
  | some (.num n) => 0 < n
  | _ => false

/-- The hook id a step declares for the given hook type. -/
def hookIdFor (sd : Option StepDef) (hookType : String) : Option String :=
  match sd with
  | none => none
  | some s => if hookType = "on_enter" then s.on_enter else s.on_exit

/-- `executeStepHook(hookType, stepId, transitionTo?)`: run the current
step's declared hook through the snippet executor; a `patch` result is
applied via `updateState` (which can throw on a schema-invalid patch).
`stepId`/`transitionTo` only feed the hook's context `meta`, which the
abstracted hook behaviour does not read. -/
def executeStepHook (env : Env) (e : Engine) (hookType : String)
    (_stepId : String) (_transitionTo : Option JValue) (now : String) :
    Except String (Option SnippetResultM × Engine) :=
  match hookIdFor (FSM.getStepDefinition e.wf e.fsmStep) hookType with
  | none => .ok (none, e)
  | some hid =>
      match StateManager.getState e.disk with
      | .error msg => .error msg
      | .ok _state =>
          let result := SnippetExecutor.execute hid (env.hooks hid)
          match result with
          | .patch p =>
              (match e.updateState p now with
               | .error msg => .error msg
               | .ok e2 => .ok (some result, e2))
          | _ => .ok (some result, e)

/-- `handleInvoke(config, state)`: build the child input bag by resolving
each declared parent dot-path (an unresolvable path contributes an
`undefined` property, dropped on save), validate a declared `on_complete`
resume step against the *current* workflow before committing, push the
child through `invokeChild`, rebind the FSM to the child's initial step,
log an `invoke` event and return a successful result labelled
`child:initialStep`. -/
def handleInvoke (_env : Env) (e : Engine) (cfg : InvokeConfig) (state : State)
    (now : String) : Except String (TransitionResult × Engine) :=
  let fromStep := jsToString (getField state "step")
  let wfId := jsToString (getField state "workflow")
  let input : List (String × JValue) :=
    (cfg.input.getD []).foldl (fun acc kv =>
      match getNestedValue (.obj state) kv.2 with
      | some v => acc ++ [(kv.1, v)]
      | none => acc) []
  match (match cfg.on_complete with
         | none => Except.ok ()
         | some r =>
             match e.getWorkflowDef wfId with
             | .error msg => .error msg
             | .ok currentWorkflow =>
                 if currentWorkflow.steps.any (fun s => s.id = r) then .ok ()
                 else .error ("Invalid on_complete step '" ++ r ++
                   "' in workflow '" ++ wfId ++ "'")) with
  | .error msg => .error msg
  | .ok _ =>
  match e.getWorkflowDef cfg.workflow with
  | .error msg => .error msg
  | .ok childWorkflow =>
  match FSM.getInitialStep childWorkflow with
  | .error msg => .error msg
  | .ok childInitialStep =>
  match StateManager.invokeChild e.disk cfg.workflow childInitialStep input
      cfg.on_complete cfg.output now with
  | .error msg => .error msg
  | .ok newState =>
      let lbl := cfg.workflow ++ ":" ++ childInitialStep
      .ok ({ success := true, rfrom := fromStep, rto := lbl, error := none },
           { e with wf := childWorkflow, fsmStep := childInitialStep,
                    status := .running, disk := some newState,
                    log := logAppend e.log
                      { workflow := wfId, lfrom := fromStep, lto := lbl,
                        ltype := some "invoke", lgate := none } })

/-- `state.nested?.result` gathered into the child-result bag
(`Object.assign({}, …)` copies an object's own properties; primitives
contribute nothing; the falsy check skips absent results). -/
def childResultOf (state : State) : List (String × JValue) :=
  match getField state "nested" with
  | none => []
  | some .null => []
  | some nv =>
      match jGet nv "result" with
      | some (.obj fs) => fs
      | _ => []

/-- The `(parentKey, childPath)` pairs of the popped entry's
`output_mapping` (a `Record<string, string>` when built by
`invokeChild`). -/
def outputEntriesOf (parentEntry : Option JValue) : List (String × String) :=
  match parentEntry with
  | none => []
  | some pe =>
      match jGet pe "output_mapping" with
      | some (.obj ms) =>
          ms.foldr (fun kv acc =>
            match kv.2 with
            | .str s => (kv.1, s) :: acc
            | _ => acc) []
      | _ => []

/-- `handleChildComplete(state)`: gather `nested.result`, build the
mapped result bag (always containing the one-shot `_child_result`
marker, plus each output-mapped key resolved out of the child result),
pop via `returnToParent`, rebind the FSM to the parent workflow at the
resumed step, log a `return` event. -/
def handleChildComplete (e : Engine) (state : State) (now : String) :
    Except String (TransitionResult × Engine) :=
  let fromLbl := jsToString (getField state "workflow") ++ ":" ++
    jsToString (getField state "step")
  let childResult := childResultOf state
  match StateManager.getCallStackArr state with
  | .error msg => .error msg
  | .ok callStack =>
      let parentEntry := callStack.getLast?
      let mappedResult :=
        (outputEntriesOf parentEntry).foldl
          (fun acc kv => setOrDrop acc kv.1 (getNestedValue (.obj childResult) kv.2))
          [("_child_result", .obj childResult)]
      match StateManager.returnToParent e.disk mappedResult now with
      | .error msg => .error msg
      | .ok newState =>
          match e.getWorkflowDef (jsToString (getField newState "workflow")) with
          | .error msg => .error msg
          | .ok parentWorkflow =>
              let toStep := jsToString (getField newState "step")
              .ok ({ success := true, rfrom := fromLbl, rto := toStep, error := none },
                   { e with wf := parentWorkflow, fsmStep := toStep,
                            status := .running, disk := some newState,
                            log := logAppend e.log
                              { workflow := jsToString (getField state "workflow"),
                                lfrom := fromLbl, lto := toStep,
                                ltype := some "return", lgate := none } })

/-- The waiting/transition tail of `step()` on a non-terminal step,
abstracted over the available-transition list `step()` computed (the
`const available = this.fsm.getAvailableTransitions(state)` local): no
available transition persists status `waiting` and returns null,
otherwise the first (lowest-priority-value) one is taken, running the
`on_exit`/`on_enter` hooks around the FSM transition. -/
def stepTail (env : Env) (e : Engine) (state : State) (now : String) :
    List Transition → Except String (Option TransitionResult × Engine)
    | [] =>
        (match StateManager.updateStatus e.disk "waiting" now with
         | .error msg => .error msg
         | .ok saved => .ok (none, { e with status := .waiting, disk := some saved }))
    | chosen :: _ =>
        match e.executeStepHook env "on_exit" (jsToString (getField state "step"))
            (some (.str chosen.tto)) now with
        | .error msg => .error msg
        | .ok (exitResult, e1) =>
            match exitResult with
            | some (.abort reason) =>
                .ok (some { success := false,
                            rfrom := jsToString (getField state "step"),
                            rto := chosen.tto,
                            error := reason.map (fun v => jsToString (some v)) }, e1)
            | _ =>
                let target : Option JValue :=
                  match exitResult with
                  | some (.transition tv _) => tv
                  | _ => some (.str chosen.tto)
                match StateManager.getState e1.disk with
                | .error msg => .error msg
                | .ok currentState =>
                    let tr := FSM.transition e1.wf e1.fsmStep env target currentState
                    if tr.1.success then
                      match StateManager.updateStep e1.disk tr.1.rto now with
                      | .error msg => .error msg
                      | .ok saved =>
                          let entry : LogEntry :=
                            { workflow := jsToString (getField state "workflow"),
                              lfrom := jsToString (getField state "step"),
                              lto := tr.1.rto, ltype := some "transition",
                              lgate := chosen.gate }
                          let e2 : Engine :=
                            { e1 with fsmStep := tr.2, disk := some saved,
                                      status := .running,
                                      log := logAppend e1.log entry }
                          match e2.executeStepHook env "on_enter" tr.1.rto none now with
                          | .error msg => .error msg
                          | .ok (_enterResult, e3) => .ok (some tr.1, e3)
                    else .ok (some tr.1, { e1 with fsmStep := tr.2 })

/-- The terminal/waiting/transition tail of `step()` (everything after
the one-shot-marker and invoke checks). -/
def stepCore (env : Env) (e : Engine) (state : State) (now : String) :
    Except String (Option TransitionResult × Engine) :=
  if FSM.isTerminal e.wf e.fsmStep then
    if depthGtZero state then
      match e.handleChildComplete state now with
      | .error msg => .error msg
      | .ok (r, e2) => .ok (some r, e2)
    else
      match StateManager.updateStatus e.disk "completed" now with
      | .error msg => .error msg
      | .ok saved => .ok (none, { e with status := .completed, disk := some saved })
  else
    stepTail env e state now (FSM.getAvailableTransitions e.wf e.fsmStep env state)

/-- `step()`: clear the one-shot `_child_result` marker when present
(persisting the removal) and skip the invoke check; otherwise delegate a
declared `invoke` immediately; then the terminal / no-transition /
take-highest-priority tail. -/
def step (env : Env) (e : Engine) (now : String) :
    Except String (Option TransitionResult × Engine) :=
  match e.ensureReady with
  | .error msg => .error msg
  | .ok _ =>
  match StateManager.getState e.disk with
  | .error msg => .error msg
  | .ok state =>
      if truthy (getField state "_child_result") then
        match StateManager.save (removeField state "_child_result") now with
        | .error msg => .error msg
        | .ok saved => stepCore env { e with disk := some saved } saved now
      else
        match FSM.checkInvoke e.wf e.fsmStep with
        | some cfg =>
            (match e.handleInvoke env cfg state now with
             | .error msg => .error msg
             | .ok (r, e2) => .ok (some r, e2))
        | none => stepCore env e state now

end Engine


/-! ## Further document and manager lemmas for the engine-level claims -/

/-- Writing the same key twice keeps only the last value. -/
theorem setField_setField : ∀ (doc : State) (k : String) (v w : JValue),
    setField (setField doc k v) k w = setField doc k w
  | [], k, v, w => by simp [setField]
  | (a, x) :: r, k, v, w => by
      by_cases hak : a = k
      · subst hak
        simp [setField]
      · simp only [setField, if_neg hak]
        rw [setField_setField r k v w]

/-- What a successful `load` guarantees: the disk held exactly the returned
document, it passed `StateSchema`, and it satisfied the depth/call-stack
consistency assertion. -/
theorem load_ok_inv (disk : Option State) (s : State)
    (h : StateManager.load disk = .ok s) :
    disk = some s ∧ validDoc s = true ∧ depthConsistent s = true := by
  cases disk with
  | none => simp [StateManager.load] at h
  | some doc =>
      cases hv : validDoc doc with
      | false => simp [StateManager.load, hv] at h
      | true =>
          cases hd : isNumStrictEq (getField doc "depth")
              (stackLenForLoad (getField doc "call_stack")) with
          | false => simp [StateManager.load, hv, hd] at h
          | true =>
              simp [StateManager.load, hv, hd] at h
              subst h
              exact ⟨rfl, hv, hd⟩

/-- A valid, depth-consistent document loads as itself. -/
theorem load_some_ok (doc : State) (hv : validDoc doc = true)
    (hd : depthConsistent doc = true) :
    StateManager.load (some doc) = .ok doc := by
  have hd' : isNumStrictEq (getField doc "depth")
      (stackLenForLoad (getField doc "call_stack")) = true := hd
  simp [StateManager.load, hv, hd']

/-- A successful `load` makes `getState` return the same document. -/
theorem getState_of_load (disk : Option State) (s : State)
    (h : StateManager.load disk = .ok s) :
    StateManager.getState disk = .ok s := by
  obtain ⟨hdisk, -, -⟩ := load_ok_inv disk s h
  subst hdisk
  rfl

/-- `StateSchema` keeps accepting a document whose `status` is rewritten to
one of the enum values. -/
theorem validDoc_setStatus (doc : State) (st : String)
    (hdoc : validDoc doc = true) (hst : statusValues.contains st = true) :
    validDoc (setField doc "status" (.str st)) = true := by
  simp only [validDoc, Bool.and_eq_true, and_assoc] at hdoc ⊢
  obtain ⟨h1, h2, h3, h4, h5, h6, h7⟩ := hdoc
  refine ⟨?_, ?_, ?_, ?_, ?_, ?_, ?_⟩ <;> rw [getField_setField]
  · rwa [if_neg (by decide)]
  · rwa [if_neg (by decide)]
  · rw [if_pos rfl]; simpa [isStatusVal] using hst
  · rwa [if_neg (by decide)]
  · rwa [if_neg (by decide)]
  · rwa [if_neg (by decide)]
  · rwa [if_neg (by decide)]

/-- `StateSchema` keeps accepting a document whose `step` is rewritten to a
string. -/
theorem validDoc_setStep (doc : State) (s : String)
    (hdoc : validDoc doc = true) :
    validDoc (setField doc "step" (.str s)) = true := by
  simp only [validDoc, Bool.and_eq_true, and_assoc] at hdoc ⊢
  obtain ⟨h1, h2, h3, h4, h5, h6, h7⟩ := hdoc
  refine ⟨?_, ?_, ?_, ?_, ?_, ?_, ?_⟩ <;> rw [getField_setField]
  · rwa [if_neg (by decide)]
  · rw [if_pos rfl]; rfl
  · rwa [if_neg (by decide)]
  · rwa [if_neg (by decide)]
  · rwa [if_neg (by decide)]
  · rwa [if_neg (by decide)]
  · rwa [if_neg (by decide)]

/-- `StateSchema` keeps accepting a document re-stamped with a datetime
`updated_at`. -/
theorem validDoc_stamp (doc : State) (now : String)
    (hdoc : validDoc doc = true) (hnow : isDatetime now = true) :
    validDoc (setField doc "updated_at" (.str now)) = true := by
  simp only [validDoc, Bool.and_eq_true, and_assoc] at hdoc ⊢
  obtain ⟨h1, h2, h3, h4, h5, h6, h7⟩ := hdoc
  refine ⟨?_, ?_, ?_, ?_, ?_, ?_, ?_⟩ <;> rw [getField_setField]
  · rwa [if_neg (by decide)]
  · rwa [if_neg (by decide)]
  · rwa [if_neg (by decide)]
  · rw [if_pos rfl]; simpa [isOptDatetime] using hnow
  · rwa [if_neg (by decide)]
  · rwa [if_neg (by decide)]
  · rwa [if_neg (by decide)]

/-- Rewriting a key other than `depth` and `call_stack` does not disturb the
depth/call-stack consistency check. -/
theorem depthConsistent_setField (doc : State) (k : String) (v : JValue)
    (hk1 : "depth" ≠ k) (hk2 : "call_stack" ≠ k) :
    depthConsistent (setField doc k v) = depthConsistent doc := by
  rw [depthConsistent, depthConsistent, getField_setField, getField_setField,
    if_neg hk1, if_neg hk2]

/-- What `updateStatus` persists when the disk loads and the inputs are
well-formed: the loaded document with `status` rewritten and `updated_at`
re-stamped. -/
theorem updateStatus_ok (disk : Option State) (state : State) (st now : String)
    (hload : StateManager.load disk = .ok state)
    (hst : statusValues.contains st = true)
    (hnow : isDatetime now = true) :
    StateManager.updateStatus disk st now =
      .ok (setField (setField state "status" (.str st)) "updated_at" (.str now)) := by
  obtain ⟨-, hv, -⟩ := load_ok_inv disk state hload
  have hv2 := validDoc_stamp _ now (validDoc_setStatus state st hv hst) hnow
  rw [StateManager.updateStatus, hload]
  dsimp only
  rw [StateManager.save]
  rw [hv2]
  rfl

/-! ## Reducing `step()` runs past the stable sort -/

/-- `getAvailableTransitions` when no outgoing gate passes. -/
theorem getAvailableTransitions_eq_nil (wf : Workflow) (cur : String) (env : Env)
    (state : State)
    (h : (FSM.getOutgoingTransitions wf cur).filter
        (fun t => FSM.canTakeTransition env t state) = []) :
    FSM.getAvailableTransitions wf cur env state = [] := by
  rw [FSM.getAvailableTransitions, h, List.mergeSort_nil]

/-- `getAvailableTransitions` when exactly one outgoing gate passes. -/
theorem getAvailableTransitions_eq_singleton (wf : Workflow) (cur : String)
    (env : Env) (state : State) (tr : Transition)
    (h : (FSM.getOutgoingTransitions wf cur).filter
        (fun t => FSM.canTakeTransition env t state) = [tr]) :
    FSM.getAvailableTransitions wf cur env state = [tr] := by
  rw [FSM.getAvailableTransitions, h, List.mergeSort_singleton]

/-- `step()` with the one-shot marker clear and no declared `invoke` is its
terminal/waiting/transition tail. -/
theorem step_eq_stepCore (env : Env) (e : Engine) (state : State) (now : String)
    (hready : e.ensureReady = .ok ())
    (hstate : StateManager.getState e.disk = .ok state)
    (hmarker : truthy (getField state "_child_result") = false)
    (hinv : FSM.checkInvoke e.wf e.fsmStep = none) :
    Engine.step env e now = Engine.stepCore env e state now := by
  rw [Engine.step, hready]
  dsimp only
  rw [hstate]
  dsimp only
  rw [hmarker, hinv]
  rfl

/-- The tail on a non-terminal step dispatches on the sorted
available-transition list. -/
theorem stepCore_not_terminal (env : Env) (e : Engine) (state : State)
    (now : String) (hterm : FSM.isTerminal e.wf e.fsmStep = false) :
    Engine.stepCore env e state now =
      Engine.stepTail env e state now
        (FSM.getAvailableTransitions e.wf e.fsmStep env state) := by
  rw [Engine.stepCore, hterm]
  rfl

/-- The tail on a terminal step dispatches on the nesting depth. -/
theorem stepCore_terminal (env : Env) (e : Engine) (state : State) (now : String)
    (hterm : FSM.isTerminal e.wf e.fsmStep = true) :
    Engine.stepCore env e state now =
      if Engine.depthGtZero state then
        match e.handleChildComplete state now with
        | .error msg => .error msg
        | .ok (r, e2) => .ok (some r, e2)
      else
        match StateManager.updateStatus e.disk "completed" now with
        | .error msg => .error msg
        | .ok saved =>
            .ok (none, { e with status := .completed, disk := some saved }) := by
  rw [Engine.stepCore, hterm]
  rfl


/-! ## Concrete engine scenarios

Closed instances used by the engine-level counterexamples and witnesses:
a fixed clock value, a closed environment, and small protocols exercising
the terminal, invoke, waiting and patch paths of `step()`/`updateState`. -/

/-- A fixed `new Date().toISOString()` value. -/
def now0 : String := "2025-01-01T00:00:00.000Z"

/-- A closed environment: no file exists and every hook returns `null`. -/
def env0 : Env := ⟨"/p", fun _ => false, fun _ => ⟨.returns .null, []⟩⟩

/-- A child workflow with a single (initial) step. -/
def wfChild : Workflow := ⟨"child", [⟨"init", none, none, none, none⟩], []⟩

/-- A workflow whose only step is terminal *and* declares an `invoke`. -/
def wfTI : Workflow :=
  ⟨"main", [⟨"t", some true, none, none, some ⟨"child", none, none, none⟩⟩], []⟩

/-- A depth-0 running document sitting on step `t`. -/
def docT : State :=
  [("workflow", .str "main"), ("step", .str "t"), ("status", .str "running"),
   ("depth", .num 0), ("call_stack", .arr [])]

/-- An initialized engine bound to `wfTI`'s terminal+invoke step. -/
def eTI : Engine :=
  ⟨.ready, none, [("main", wfTI), ("child", wfChild)], wfTI, "t", some docT, []⟩

/-- The same terminal step without an `invoke` block. -/
def wfT : Workflow := ⟨"main", [⟨"t", some true, none, none, none⟩], []⟩

/-- An initialized engine bound to `wfT`'s plain terminal step. -/
def eT : Engine := ⟨.ready, none, [("main", wfT)], wfT, "t", some docT, []⟩

/-- A transition gated on `status === "waiting"` — a condition `step()`
itself makes true when it records the waiting status. -/
def t5 : Transition := ⟨"s1", "s2", none, some (.gate (.status "status" "waiting"))⟩

/-- The workflow holding `t5`. -/
def wf5 : Workflow :=
  ⟨"main", [⟨"s1", none, none, none, none⟩, ⟨"s2", none, none, none, none⟩], [t5]⟩

/-- A depth-0 running document sitting on step `s1`. -/
def doc5 : State :=
  [("workflow", .str "main"), ("step", .str "s1"), ("status", .str "running"),
   ("depth", .num 0), ("call_stack", .arr [])]

/-- An initialized engine bound to `wf5` at `s1`. -/
def e5 : Engine := ⟨.ready, none, [("main", wf5)], wf5, "s1", some doc5, []⟩

/-- `doc5` as the first `step()` call persists it: status `waiting`,
`updated_at` re-stamped. -/
def doc5w : State :=
  setField (setField doc5 "status" (.str "waiting")) "updated_at" (.str now0)

/-- The engine after the first `step()` call on `e5`. -/
def e5b : Engine := { e5 with status := .waiting, disk := some doc5w }

/-- A workflow with one non-terminal step and no transitions at all. -/
def wfW : Workflow := ⟨"main", [⟨"s1", none, none, none, none⟩], []⟩

/-- An initialized engine bound to `wfW` at `s1`. -/
def eW : Engine := ⟨.ready, none, [("main", wfW)], wfW, "s1", some doc5, []⟩

/-! ## C2 — terminal-step behaviour of `step()` -/

/-- **C2 (counterexample)** — the spec says a terminal step at depth 0 sets
status `completed` and returns null, but `step()` runs the invoke check
*before* the terminal check: on `eTI` (a terminal step that also declares
`invoke`, depth 0, marker clear) `step()` invokes the child instead,
returning a successful `t → child:init` TransitionResult with status
`running`. -/
theorem C2_counterexample :
    FSM.isTerminal eTI.wf eTI.fsmStep = true ∧
    Engine.depthGtZero docT = false ∧
    StateManager.load eTI.disk = .ok docT ∧
    Except.map Prod.fst (Engine.step env0 eTI now0) =
      .ok (some { success := true, rfrom := "t", rto := "child:init", error := none }) ∧
    Except.map (fun p => p.2.status) (Engine.step env0 eTI now0) = .ok .running :=
  ⟨rfl, rfl, rfl, rfl, rfl⟩

/-- **C2 (amended)** — if the current step is terminal, the one-shot
`_child_result` marker is clear and the step declares no `invoke`, `step()`
behaves by nesting level: at depth 0 it persists status `completed` and
returns null; at depth > 0 it performs the return-to-parent protocol —
popping the call stack via `returnToParent` with the mapped child-result
bag, rebinding the FSM executor to the parent workflow at the resumed step
and logging a `return` event — and returns a successful TransitionResult. -/
theorem C2_terminal_step_behavior (env : Env) (e : Engine) (state : State)
    (now : String)
    (hready : e.ensureReady = .ok ())
    (hload : StateManager.load e.disk = .ok state)
    (hmarker : truthy (getField state "_child_result") = false)
    (hinv : FSM.checkInvoke e.wf e.fsmStep = none)
    (hterm : FSM.isTerminal e.wf e.fsmStep = true)
    (hnow : isDatetime now = true) :
    (Engine.depthGtZero state = false →
      Engine.step env e now = .ok (none, { e with
        status := .completed,
        disk := some (setField (setField state "status" (.str "completed"))
          "updated_at" (.str now)) })) ∧
    (∀ (cs : List JValue) (newState : State) (parentWorkflow : Workflow),
      Engine.depthGtZero state = true →
      getField state "call_stack" = some (.arr cs) →
      StateManager.returnToParent e.disk
        ((Engine.outputEntriesOf cs.getLast?).foldl
          (fun acc kv => setOrDrop acc kv.1
            (getNestedValue (.obj (Engine.childResultOf state)) kv.2))
          [("_child_result", .obj (Engine.childResultOf state))]) now
        = .ok newState →
      Engine.getWorkflowDef e (jsToString (getField newState "workflow"))
        = .ok parentWorkflow →
      Engine.step env e now = .ok
        (some { success := true,
                rfrom := jsToString (getField state "workflow") ++ ":" ++
                  jsToString (getField state "step"),
                rto := jsToString (getField newState "step"), error := none },
         { e with wf := parentWorkflow,
                  fsmStep := jsToString (getField newState "step"),
                  status := .running, disk := some newState,
                  log := logAppend e.log
                    { workflow := jsToString (getField state "workflow"),
                      lfrom := jsToString (getField state "workflow") ++ ":" ++
                        jsToString (getField state "step"),
                      lto := jsToString (getField newState "step"),
                      ltype := some "return", lgate := none } })) := by
  have hstate := getState_of_load e.disk state hload
  constructor
  · intro hdepth
    rw [step_eq_stepCore env e state now hready hstate hmarker hinv,
        stepCore_terminal env e state now hterm, hdepth,
        if_neg Bool.false_ne_true,
        updateStatus_ok e.disk state "completed" now hload rfl hnow]
  · intro cs newState parentWorkflow hdepth hcs hrtp hwf
    have hcsa : StateManager.getCallStackArr state = .ok cs := by
      rw [StateManager.getCallStackArr, hcs]
    rw [step_eq_stepCore env e state now hready hstate hmarker hinv,
        stepCore_terminal env e state now hterm, hdepth, if_pos rfl,
        Engine.handleChildComplete, hcsa]
    dsimp only
    rw [hrtp]
    dsimp only
    rw [hwf]

/-- **C2 (witness)** — the amended theorem at the concrete plain-terminal
engine `eT`: `step()` completes at depth 0. -/
theorem C2_witness :
    Engine.step env0 eT now0 = .ok (none, { eT with
      status := .completed,
      disk := some (setField (setField docT "status" (.str "completed"))
        "updated_at" (.str now0)) }) :=
  (C2_terminal_step_behavior env0 eT docT now0 rfl rfl rfl rfl rfl rfl).1 rfl

/-! ## C5 — the waiting outcome of `step()` -/

/-- **C5 (counterexample)** — `step()` with no passing gate records
`waiting` and returns null, but the call is *not* idempotent: on `e5`
(whose only outgoing transition is gated on `status === "waiting"`) the
first call returns null and records `waiting`, and the second call — with
no external change to the state — takes the `s1 → s2` transition, because
the gate reads the very status value the first call persisted. -/
theorem C5_counterexample :
    FSM.isTerminal e5.wf e5.fsmStep = false ∧
    FSM.checkInvoke e5.wf e5.fsmStep = none ∧
    Engine.step env0 e5 now0 = .ok (none, e5b) ∧
    e5b.status = .waiting ∧
    Except.map Prod.fst (Engine.step env0 e5b now0) =
      .ok (some { success := true, rfrom := "s1", rto := "s2", error := none }) := by
  refine ⟨rfl, rfl, ?_, rfl, ?_⟩
  · rw [step_eq_stepCore env0 e5 doc5 now0 rfl rfl rfl rfl,
        stepCore_not_terminal env0 e5 doc5 now0 rfl,
        getAvailableTransitions_eq_nil e5.wf e5.fsmStep env0 doc5 rfl]
    rfl
  · rw [step_eq_stepCore env0 e5b doc5w now0 rfl rfl rfl rfl,
        stepCore_not_terminal env0 e5b doc5w now0 rfl,
        getAvailableTransitions_eq_singleton e5b.wf e5b.fsmStep env0 doc5w t5 rfl]
    rfl

/-- **C5 (amended)** — on a non-terminal, non-invoking step (marker clear)
with no passing gate, `step()` records status `waiting` (re-stamping
`updated_at`) and returns null; repeating the call returns null and
`waiting` again *provided* no outgoing gate passes on the persisted
waiting state — a gate that reads `status` can observe the recorded
`waiting` and fire on the second call. -/
theorem C5_waiting_idempotent (env : Env) (e : Engine) (state : State)
    (now : String)
    (hready : e.ensureReady = .ok ())
    (hload : StateManager.load e.disk = .ok state)
    (hmarker : truthy (getField state "_child_result") = false)
    (hinv : FSM.checkInvoke e.wf e.fsmStep = none)
    (hterm : FSM.isTerminal e.wf e.fsmStep = false)
    (hnow : isDatetime now = true)
    (havail : FSM.getAvailableTransitions e.wf e.fsmStep env state = []) :
    Engine.step env e now = .ok (none, { e with
      status := .waiting,
      disk := some (setField (setField state "status" (.str "waiting"))
        "updated_at" (.str now)) }) ∧
    (FSM.getAvailableTransitions e.wf e.fsmStep env
        (setField (setField state "status" (.str "waiting"))
          "updated_at" (.str now)) = [] →
      Engine.step env
        { e with
          status := .waiting,
          disk := some (setField (setField state "status" (.str "waiting"))
            "updated_at" (.str now)) } now
      = .ok (none, { e with
          status := .waiting,
          disk := some (setField (setField
            (setField (setField state "status" (.str "waiting"))
              "updated_at" (.str now))
            "status" (.str "waiting")) "updated_at" (.str now)) })) := by
  have hstate := getState_of_load e.disk state hload
  obtain ⟨hdisk, hv, hdc⟩ := load_ok_inv e.disk state hload
  constructor
  · rw [step_eq_stepCore env e state now hready hstate hmarker hinv,
        stepCore_not_terminal env e state now hterm, havail]
    simp only [Engine.stepTail]
    rw [updateStatus_ok e.disk state "waiting" now hload rfl hnow]
  · intro havail2
    set saved := setField (setField state "status" (.str "waiting"))
      "updated_at" (.str now) with hsv
    set e2 : Engine := { e with status := .waiting, disk := some saved } with he2
    have hv2 : validDoc saved = true := by
      rw [hsv]
      exact validDoc_stamp _ now (validDoc_setStatus state "waiting" hv rfl) hnow
    have hdc2 : depthConsistent saved = true := by
      rw [hsv, depthConsistent_setField _ _ _ (by decide) (by decide),
          depthConsistent_setField _ _ _ (by decide) (by decide)]
      exact hdc
    have hmarker2 : truthy (getField saved "_child_result") = false := by
      rw [hsv, getField_setField, if_neg (by decide), getField_setField,
        if_neg (by decide)]
      exact hmarker
    have hready2 : e2.ensureReady = .ok () := rfl
    have hstate2 : StateManager.getState e2.disk = .ok saved := rfl
    have hload2 : StateManager.load e2.disk = .ok saved := load_some_ok _ hv2 hdc2
    have hinv2 : FSM.checkInvoke e2.wf e2.fsmStep = none := hinv
    have hterm2 : FSM.isTerminal e2.wf e2.fsmStep = false := hterm
    have havail2x : FSM.getAvailableTransitions e2.wf e2.fsmStep env saved = [] :=
      havail2
    rw [step_eq_stepCore env e2 saved now hready2 hstate2 hmarker2 hinv2,
        stepCore_not_terminal env e2 saved now hterm2, havail2x]
    simp only [Engine.stepTail]
    rw [updateStatus_ok e2.disk saved "waiting" now hload2 rfl hnow]

/-- **C5 (witness)** — the amended theorem at the concrete engine `eW`
(one step, no transitions): two consecutive `step()` calls both return
null and record `waiting`. -/
theorem C5_witness :
    Engine.step env0 eW now0 = .ok (none, { eW with
      status := .waiting,
      disk := some (setField (setField doc5 "status" (.str "waiting"))
        "updated_at" (.str now0)) }) ∧
    Engine.step env0
      { eW with
        status := .waiting,
        disk := some (setField (setField doc5 "status" (.str "waiting"))
          "updated_at" (.str now0)) } now0
    = .ok (none, { eW with
        status := .waiting,
        disk := some (setField (setField
          (setField (setField doc5 "status" (.str "waiting"))
            "updated_at" (.str now0))
          "status" (.str "waiting")) "updated_at" (.str now0)) }) := by
  have h := C5_waiting_idempotent env0 eW doc5 now0 rfl rfl rfl rfl rfl rfl
    (getAvailableTransitions_eq_nil eW.wf eW.fsmStep env0 doc5 rfl)
  exact ⟨h.1, h.2 (getAvailableTransitions_eq_nil eW.wf eW.fsmStep env0 _ rfl)⟩

/-! ## C10 — the frame property of `updateState` -/

/-- **C10 (counterexample)** — `updateState` does *not* persist every
patch: a patch whose merged document fails `StateSchema` (here `tasks: 5`,
not an array) makes `updateState` throw the schema-validation error
instead of persisting the patched fields. -/
theorem C10_counterexample :
    Engine.updateState eT [("tasks", .num 5)] now0 =
      .error "State schema validation failed" := rfl

/-- **C10 (amended)** — for a duplicate-free patch whose merge into the
current state is schema-valid once `updated_at` is re-stamped,
`updateState` persists exactly the merged, re-stamped document: patch keys
take the patch's values, `updated_at` is `now`, and every other field —
`depth`, `call_stack`, `nested` and all passthrough fields included — is
unchanged. -/
theorem C10_update_state_frame (e : Engine) (patch : List (String × JValue))
    (state : State) (now : String)
    (hready : e.ensureReady = .ok ())
    (hstate : StateManager.getState e.disk = .ok state)
    (hnodup : (patch.map Prod.fst).Nodup)
    (hvalid : validDoc (setField (mergeFields state patch) "updated_at"
      (.str now)) = true) :
    Engine.updateState e patch now =
      .ok { e with disk := some (setField (mergeFields state patch)
        "updated_at" (.str now)) } ∧
    getField (setField (mergeFields state patch) "updated_at" (.str now))
      "updated_at" = some (.str now) ∧
    (∀ k, k ≠ "updated_at" → getField patch k = none →
      getField (setField (mergeFields state patch) "updated_at" (.str now)) k
        = getField state k) ∧
    (∀ k v, k ≠ "updated_at" → getField patch k = some v →
      getField (setField (mergeFields state patch) "updated_at" (.str now)) k
        = some v) := by
  refine ⟨?_, ?_, ?_, ?_⟩
  · rw [Engine.updateState, hready]
    dsimp only
    rw [hstate]
    dsimp only
    rw [StateManager.save]
    rw [setField_setField, hvalid]
    rfl
  · rw [getField_setField, if_pos rfl]
  · intro k hk hnone
    rw [getField_setField, if_neg hk, getField_mergeFields patch state k hnodup,
      hnone]
  · intro k v hk hsome
    rw [getField_setField, if_neg hk, getField_mergeFields patch state k hnodup,
      hsome]

/-- **C10 (witness)** — the amended theorem at `eT` with the passthrough
patch `{note: "hi"}`: the patch persists and the new field reads back. -/
theorem C10_witness :
    Engine.updateState eT [("note", .str "hi")] now0 =
      .ok { eT with disk := some (setField (mergeFields docT
        [("note", .str "hi")]) "updated_at" (.str now0)) } ∧
    getField (setField (mergeFields docT [("note", .str "hi")])
      "updated_at" (.str now0)) "note" = some (.str "hi") := by
  have h := C10_update_state_frame eT [("note", .str "hi")] docT now0 rfl rfl
    (by simp) rfl
  exact ⟨h.1, h.2.2.2 "note" (.str "hi") (by decide) rfl⟩

end Arcanum
